import Mathlib

/-!
# dbmirror `pending.c`: change capture and row encoding

A shallow embedding of `src/pending.c` (the trigger `recordchange`, the log
writer `storePending` / `storeKeyInfo` / `storeData`, the row encoder
`packageData`, and the sequence mirror `setval_mirror` / `setval3_mirror` /
`nextval_mirror` with `saveSequenceUpdate`), followed by theorems about it.

Conventions of the embedding.

* A C `char` is a `Char`; a C string is the `List Char` held in memory, read
  up to the first `NUL` (`cstr`, `strlen`).  A list with no `NUL` in it is a
  C string read whole.
* The payload buffer `cpDataBlock` is the list of the bytes stored below the
  write offset, together with the two `int` counters `iDataBlockSize` and
  `iUsedDataBlock` kept by the code.  The cursor `cpFormatedPtr` is
  `cpDataBlock + iUsedDataBlock` at every store of the source, so a store is
  a store at offset `iUsedDataBlock`.  Counters are natural numbers (the
  allocator of the host refuses blocks long before an `int` wraps).
* `ereport(ERROR, ...)` and `elog(ERROR, ...)` do not return: they are
  `Except.error`.  `elog(NOTICE, ...)` has no effect on the log tables.
* The host (SPI, catalog, transaction id) is a parameter, `Host`.
-/

namespace Dbmirror

/-! ## Characters and C strings -/

/-- The string terminator. -/
def NUL : Char := Char.ofNat 0

/-- The double quote that surrounds a column name. -/
def DQUOTE : Char := Char.ofNat 34

/-- The single quote that surrounds a value. -/
def SQUOTE : Char := Char.ofNat 39

/-- The backslash. -/
def BACKSLASH : Char := Char.ofNat 92

/-- Number of bytes before the terminator: `strlen`. -/
def strlen : List Char → Nat
  | [] => 0
  | c :: cs => if c = NUL then 0 else strlen cs + 1

/-- Bytes before the terminator: what `%s` copies. -/
def cstr : List Char → List Char
  | [] => []
  | c :: cs => if c = NUL then [] else c :: cstr cs

/-- Result of `strcmp(a, b) == 0`. -/
def strcmpEq (a b : List Char) : Bool := cstr a == cstr b

/-! ## Data model -/

/-- The C enumeration `enum FieldUsage` (the count `NUM_FIELDUSAGE` is not a usage). -/
inductive FieldUsage where
  | PRIMARY
  | NONPRIMARY
  | ALLKEYS
  | ALL
  deriving DecidableEq, Repr

/-- One attribute of a tuple descriptor: the fields `packageData` reads. -/
structure FormData_pg_attribute where
  attname : List Char
  attisdropped : Bool
  deriving DecidableEq, Repr

/-- Tuple descriptor: `natts` is the length of `attrs`. -/
structure TupleDesc where
  attrs : List FormData_pg_attribute
  deriving DecidableEq, Repr

/-- Number of attributes of a descriptor. -/
def TupleDesc.natts (d : TupleDesc) : Nat := d.attrs.length

/-- Row image: for each column the text `SPI_getvalue` gives, `none` for SQL null. -/
structure HeapTuple where
  t_tableOid : Nat
  values : List (Option (List Char))
  deriving DecidableEq, Repr

/-- `SPI_getvalue(tuple, tupdesc, fnumber)`: `NULL` for a null attribute and for a
column number out of range; a `NULL` tuple has no values. -/
def SPI_getvalue (tuple : Option HeapTuple) (fnumber : Nat) : Option (List Char) :=
  match tuple with
  | none => none
  | some t => if fnumber = 0 then none else (t.values.get? (fnumber - 1)).join

/-- A length-prefixed block (`varlena`): declared size and content. -/
structure Varlena where
  varsize : Nat
  vardata : List Char
  deriving DecidableEq, Repr

/-- Size of the length prefix, `VARHDRSZ`. -/
def VARHDRSZ : Nat := 4

/-- Growth step of the payload buffer. -/
def BUFFER_SIZE : Nat := 256

/-- Characters reserved for an OID in a catalog query. -/
def MAX_OID_LEN : Nat := 10

/-- Return code of a successful `SELECT`. -/
def SPI_OK_SELECT : Int := 5

/-- Return code of a successful `INSERT`. -/
def SPI_OK_INSERT : Int := 7

/-- What `SPI_exec` leaves behind for a one-column catalog query: the return code,
`SPI_processed`, and the 16-bit column numbers held by the first row. -/
structure SPIResult where
  ret : Int
  processed : Nat
  keys : List Int
  deriving DecidableEq, Repr

/-- The host: outcomes of the SPI calls and the current transaction id. -/
structure Host where
  SPI_connect : Int
  SPI_prepare : List Char → Bool
  SPI_execp : List Char → Int
  SPI_exec : List Char → SPIResult
  GetCurrentTransactionId : Nat

/-! ## Key topology (`getPrimaryKey`, `getForeignKey`) -/

/-- Decimal digits of a natural number, most significant first; `fuel` bounds the
number of digits. -/
def natDigits : Nat → Nat → List Char
  | 0, _ => []
  | fuel + 1, n =>
    if n < 10 then [Nat.digitChar n]
    else natDigits fuel (n / 10) ++ [Nat.digitChar (n % 10)]

/-- The conversion `%d` applied to a 32-bit argument: the argument is read as a
signed `int`. -/
def sprintf_d (x : Nat) : List Char :=
  let v := x % 2 ^ 32
  if v < 2 ^ 31 then natDigits 10 v else '-' :: natDigits 10 (2 ^ 32 - v)

/-- Query text of `getPrimaryKey`: `sprintf(query, "%s%d", queryBase, tblOid)`. -/
def primaryKeyQuery (tblOid : Nat) : List Char :=
  "SELECT indkey FROM pg_index WHERE indisprimary='t' AND indrelid=".toList ++ sprintf_d tblOid

/-- Query text of `getForeignKey`. -/
def foreignKeyQuery (tblOid : Nat) : List Char :=
  "SELECT array_cat_agg(conkey) FROM pg_constraint WHERE contype = 'f' AND conrelid=".toList
    ++ sprintf_d tblOid

/-- Embedding of `getPrimaryKey`: the key vector, or `NULL` unless exactly one row came back. -/
def getPrimaryKey (h : Host) (tblOid : Nat) : Option (List Int) :=
  let r := h.SPI_exec (primaryKeyQuery tblOid)
  if r.ret ≠ SPI_OK_SELECT ∨ r.processed ≠ 1 then none else some r.keys

/-- Embedding of `getForeignKey`. -/
def getForeignKey (h : Host) (tblOid : Nat) : Option (List Int) :=
  let r := h.SPI_exec (foreignKeyQuery tblOid)
  if r.ret ≠ SPI_OK_SELECT ∨ r.processed ≠ 1 then none else some r.keys

/-! ## The row encoder (`packageData`) -/

/-- The payload buffer: bytes stored so far, allocated size, used count. -/
structure DataBlock where
  cpDataBlock : List Char
  iDataBlockSize : Nat
  iUsedDataBlock : Nat
  deriving DecidableEq, Repr

/-- A store of `bs` at `cpDataBlock + iUsedDataBlock`. -/
def DataBlock.store (st : DataBlock) (bs : List Char) : DataBlock :=
  { st with cpDataBlock := st.cpDataBlock.take st.iUsedDataBlock ++ bs }

/-- The statement `iUsedDataBlock = iUsedDataBlock + n`. -/
def DataBlock.advance (st : DataBlock) (n : Nat) : DataBlock :=
  { st with iUsedDataBlock := st.iUsedDataBlock + n }

/-- The loop `while (iDataBlockSize - iUsedDataBlock < need) { repalloc; iDataBlockSize += BUFFER_SIZE; }`
run for at most `fuel` rounds. -/
def growLoop : Nat → Nat → DataBlock → DataBlock
  | 0, _, st => st
  | fuel + 1, need, st =>
    if st.iDataBlockSize - st.iUsedDataBlock < need then
      growLoop fuel need { st with iDataBlockSize := st.iDataBlockSize + BUFFER_SIZE }
    else st

/-- The growth loop with enough rounds: each round adds `BUFFER_SIZE` bytes, so
`need` rounds are enough (`growBlock_exit`). -/
def growBlock (need : Nat) (st : DataBlock) : DataBlock := growLoop need need st

/-- Search of a key vector for a column number, as the two `for` loops with `break` do. -/
def keyListHas : List Int → Nat → Bool
  | [], _ => false
  | k :: ks, iColumnCounter => if k = (iColumnCounter : Int) then true else keyListHas ks iColumnCounter

/-- Value of `iIsPrimaryKey` for a column (read only when `eKeyUsage != ALL`, where
`tpPKeys` is not `NULL`). -/
def iIsPrimaryKey (tpPKeys : Option (List Int)) (iColumnCounter : Nat) : Bool :=
  match tpPKeys with
  | none => false
  | some ks => keyListHas ks iColumnCounter

/-- Value of `iIsForeignKey` for a column: the loop does not run when `tpFKeys` is `NULL`. -/
def iIsForeignKey (tpFKeys : Option (List Int)) (iColumnCounter : Nat) : Bool :=
  match tpFKeys with
  | none => false
  | some ks => keyListHas ks iColumnCounter

/-- The test that guards `continue` ("Don't use"), lines 531-572. -/
def skipColumn (eKeyUsage : FieldUsage) (tpPKeys tpFKeys : Option (List Int))
    (iColumnCounter : Nat) : Bool :=
  if eKeyUsage ≠ FieldUsage.ALL then
    (iIsPrimaryKey tpPKeys iColumnCounter && eKeyUsage == FieldUsage.NONPRIMARY)
    || (iIsForeignKey tpFKeys iColumnCounter && eKeyUsage == FieldUsage.PRIMARY)
    || (!iIsPrimaryKey tpPKeys iColumnCounter && !iIsForeignKey tpFKeys iColumnCounter
          && eKeyUsage != FieldUsage.NONPRIMARY)
  else false

/-- The format loop `while (*cpUnFormatedPtr != 0)`, lines 623-643. -/
def formatLoop : List Char → DataBlock → DataBlock
  | [], st => st
  | c :: rest, st =>
    if c = NUL then st
    else
      let st1 := growBlock 2 st
      let st2 := if c = BACKSLASH ∨ c = SQUOTE then (st1.store [c]).advance 1 else st1
      formatLoop rest ((st2.store [c]).advance 1)

/-- Lines 603-656: what the column loop stores for the value of a column. -/
def packageValue (cpFieldData : Option (List Char)) (st2 : DataBlock) : DataBlock :=
  match cpFieldData with
  | none => (st2.store [' ']).advance 1
  | some cpUnFormatedPtr =>
    let st3 := (st2.store [SQUOTE]).advance 1
    let st4 := formatLoop cpUnFormatedPtr st3
    let st5 := growBlock 3 st4
    (st5.store [SQUOTE, ' ']).advance 2

/-- Body of the column loop for column `iColumnCounter` with attribute `att`. -/
def packageColumn (eKeyUsage : FieldUsage) (tpPKeys tpFKeys : Option (List Int))
    (tTupleData : Option HeapTuple) (iColumnCounter : Nat) (att : FormData_pg_attribute)
    (st : DataBlock) : DataBlock :=
  if skipColumn eKeyUsage tpPKeys tpFKeys iColumnCounter then st
  else if att.attisdropped then st
  else
    let cpFieldName := att.attname
    let st1 := growBlock (strlen cpFieldName + 6) st
    let st2 := (st1.store (DQUOTE :: cstr cpFieldName ++ [DQUOTE, '='])).advance
      (strlen cpFieldName + 3)
    packageValue (SPI_getvalue tTupleData iColumnCounter) st2

/-- The loop `for (iColumnCounter = 1; iColumnCounter <= iNumCols; iColumnCounter++)`:
`atts` are the attributes `attrs[iColumnCounter - 1]`, `attrs[iColumnCounter]`, ... -/
def columnLoop (eKeyUsage : FieldUsage) (tpPKeys tpFKeys : Option (List Int))
    (tTupleData : Option HeapTuple) : Nat → List FormData_pg_attribute → DataBlock → DataBlock
  | _, [], st => st
  | iColumnCounter, att :: atts, st =>
    columnLoop eKeyUsage tpPKeys tpFKeys tTupleData (iColumnCounter + 1) atts
      (packageColumn eKeyUsage tpPKeys tpFKeys tTupleData iColumnCounter att st)

/-- Lines 671-680: zero the tail, take `strlen`, copy into a fresh length-prefixed block. -/
def finishBlock (st : DataBlock) : Varlena :=
  let zeroed := st.cpDataBlock.take st.iUsedDataBlock
  let iBlockLen := strlen zeroed
  { varsize := VARHDRSZ + iBlockLen, vardata := zeroed.take iBlockLen }

/-- Lines 495-501: the primary key is fetched unless the usage is `ALL`. -/
def loadPKeys (h : Host) (tableOid : Nat) (eKeyUsage : FieldUsage) : Option (List Int) :=
  if eKeyUsage ≠ FieldUsage.ALL then getPrimaryKey h tableOid else none

/-- Lines 506-510: the foreign keys are fetched only when the usage is `ALLKEYS`. -/
def loadFKeys (h : Host) (tableOid : Nat) (eKeyUsage : FieldUsage) : Option (List Int) :=
  if eKeyUsage = FieldUsage.ALLKEYS then getForeignKey h tableOid else none

/-- The block as allocated at line 514. -/
def emptyBlock : DataBlock :=
  { cpDataBlock := [], iDataBlockSize := BUFFER_SIZE, iUsedDataBlock := 0 }

/-- Embedding of `packageData`; `none` is the `NULL` return. -/
def packageData (h : Host) (tTupleData : Option HeapTuple) (tTupleDesc : TupleDesc)
    (tableOid : Nat) (eKeyUsage : FieldUsage) : Option Varlena :=
  let tpPKeys := loadPKeys h tableOid eKeyUsage
  if eKeyUsage ≠ FieldUsage.ALL ∧ tpPKeys = none then none
  else
    let tpFKeys := loadFKeys h tableOid eKeyUsage
    some (finishBlock
      (columnLoop eKeyUsage tpPKeys tpFKeys tTupleData 1 tTupleDesc.attrs emptyBlock))

/-! ## The payload grammar, in the words of the specification -/

/-- The escaping rule of the specification: a backslash or a single quote is written
twice, any other byte is copied. -/
def escapeValue (v : List Char) : List Char :=
  v.flatMap (fun c => if c = BACKSLASH ∨ c = SQUOTE then [c, c] else [c])

/-- The token of a column in the payload grammar: the quoted name and `=`, then one
space for a null, or the quoted escaped value and one space. -/
def columnToken (name : List Char) (value : Option (List Char)) : List Char :=
  DQUOTE :: name ++ [DQUOTE, '='] ++
    (match value with
     | none => [' ']
     | some v => SQUOTE :: escapeValue v ++ [SQUOTE, ' '])

/-- The name of an attribute, read as a C string. -/
def fieldName (att : FormData_pg_attribute) : List Char := cstr att.attname

/-- The value of a column of a row image, read as a C string; `none` for a null. -/
def fieldValue (tuple : Option HeapTuple) (iColumnCounter : Nat) : Option (List Char) :=
  (SPI_getvalue tuple iColumnCounter).map cstr

/-- The columns of a descriptor with their ordinals, in schema order. -/
def columns (d : TupleDesc) : List (Nat × FormData_pg_attribute) := d.attrs.enumFrom 1

/-- The columns `packageData` goes on to encode: not skipped by the usage test of the
source and not dropped. -/
def usedColumn (eKeyUsage : FieldUsage) (tpPKeys tpFKeys : Option (List Int))
    (p : Nat × FormData_pg_attribute) : Bool :=
  !skipColumn eKeyUsage tpPKeys tpFKeys p.1 && !p.2.attisdropped

/-- Reading of a doubled text: each doubled backslash or doubled single quote is one
byte; a lone backslash or single quote is not part of the grammar. -/
def undouble : List Char → Option (List Char)
  | [] => some []
  | [c] => if c = BACKSLASH ∨ c = SQUOTE then none else some [c]
  | c :: c2 :: rest =>
    if c = BACKSLASH ∨ c = SQUOTE then
      if c2 = c then (undouble rest).map (fun r => c :: r) else none
    else (undouble (c2 :: rest)).map (fun r => c :: r)

/-- Decoding of a value token per the payload grammar: strip the surrounding single
quotes, then read the doubled bytes. -/
def decodeValueToken (tok : List Char) : Option (List Char) :=
  match tok with
  | [] => none
  | q :: rest =>
    if q = SQUOTE ∧ rest.getLast? = some SQUOTE then undouble rest.dropLast else none

/-- The value token `packageData` stores for a non-null value: the bytes stored by
lines 603-656 on a fresh block, without the space that ends the column token. -/
def emittedValueToken (v : List Char) : List Char :=
  (packageValue (some v) emptyBlock).cpDataBlock.dropLast

/-- Membership of a column ordinal in a key list. -/
def inKeys (ks : List Int) (c : Nat) : Bool := decide ((c : Int) ∈ ks)

/-- The inclusion truth table of the specification (KeysOnly, NonKeyColumns,
KeyAndForeignColumns, AllColumns), over the primary-key and foreign-key ordinals. -/
def policyIncludes (eKeyUsage : FieldUsage) (pk fk : List Int) (c : Nat) : Bool :=
  match eKeyUsage with
  | FieldUsage.ALL => true
  | FieldUsage.PRIMARY => inKeys pk c && !inKeys fk c
  | FieldUsage.NONPRIMARY => !inKeys pk c
  | FieldUsage.ALLKEYS => inKeys pk c || inKeys fk c

/-- The payload the specification prescribes for a set of columns: the tokens of the
selected, non-dropped columns in schema order. -/
def tokensOf (tuple : Option HeapTuple) (d : TupleDesc)
    (sel : Nat → Bool) : List Char :=
  ((columns d).filter (fun p => sel p.1 && !p.2.attisdropped)).flatMap
    (fun p => columnToken (fieldName p.2) (fieldValue tuple p.1))

/-- The sequence of encoded columns of a row under a usage: name and null-or-value of
each column `packageData` encodes, in schema order. -/
def encodedColumns (h : Host) (tuple : Option HeapTuple) (d : TupleDesc) (tableOid : Nat)
    (eKeyUsage : FieldUsage) : List (List Char × Option (List Char)) :=
  ((columns d).filter
      (usedColumn eKeyUsage (loadPKeys h tableOid eKeyUsage) (loadFKeys h tableOid eKeyUsage))).map
    (fun p => (fieldName p.2, fieldValue tuple p.1))

/-- The used count of a block is the number of bytes stored in it. -/
def Synced (st : DataBlock) : Prop := st.iUsedDataBlock = st.cpDataBlock.length

/-- A host whose SPI calls all succeed. -/
def HostOK (h : Host) : Prop :=
  0 ≤ h.SPI_connect ∧ (∀ q, h.SPI_prepare q = true) ∧ (∀ q, h.SPI_execp q = SPI_OK_INSERT)


/-! ## The log tables and the writer (`storePending`, `storeKeyInfo`, `storeData`) -/

/-- A row of `dbmirror_pending` (the header log). -/
structure PendingRow where
  SeqId : Nat
  TableName : List Char
  Op : Char
  XID : Nat
  deriving DecidableEq, Repr

/-- A row of `dbmirror_pendingdata` (the payload log). -/
structure PendingDataRow where
  SeqId : Nat
  IsKey : Bool
  Data : List Char
  deriving DecidableEq, Repr

/-- The two log tables as the session sees them, the last value handed out by
`dbmirror_pending_seqid_seq`, and the session's `currval` of that sequence. -/
structure Session where
  pending : List PendingRow
  pendingdata : List PendingDataRow
  seqLast : Nat
  currval : Option Nat
  deriving DecidableEq, Repr

/-- The hard errors the code raises, one per `ereport(ERROR, ...)` / `elog(ERROR, ...)`,
and the error the log store raises for `currval` of a sequence not yet advanced in
the session. -/
inductive Err where
  | couldNotConnect
  | errorCreatingPlan
  | unknownOperation
  | couldNotBeMirrored
  | noPrimaryKey
  | tableLacksPrimaryKey
  | errorInsertingRow
  | currvalNotDefined
  | sequpdateCouldNotConnect
  | sequpdateErrorCreatingPlan
  | errorInsertingPending
  | errorInsertingPendingData
  deriving DecidableEq, Repr

/-- Modelled from the spec: the table `dbmirror_pending` is declared outside
`pending.c`; per the spec its `sequenceId` is assigned by the log store
(auto-increment), and the row written becomes the session's most recently
created header. -/
def insertPending (s : Session) (tableName : List Char) (op : Char) (xid : Nat) : Session :=
  { s with
    pending := s.pending ++ [{ SeqId := s.seqLast + 1, TableName := tableName, Op := op, XID := xid }]
    seqLast := s.seqLast + 1
    currval := some (s.seqLast + 1) }

/-- Modelled from the spec: the table `dbmirror_pendingdata` is declared outside
`pending.c`; the insert takes its `SeqId` from `currval('dbmirror_pending_seqid_seq')`,
the most recently created header of the session, and fails when there is none. -/
def insertPendingData (s : Session) (isKey : Bool) (data : List Char) : Except Err Session :=
  match s.currval with
  | none => Except.error Err.currvalNotDefined
  | some id =>
    Except.ok { s with pendingdata := s.pendingdata ++ [{ SeqId := id, IsKey := isKey, Data := data }] }

/-- Text of the header insert of `storePending`. -/
def cpQueryBase : List Char :=
  "INSERT INTO dbmirror_pending (TableName,Op,XID) VALUES ($1,$2,$3)".toList

/-- Text of the payload insert of `storeKeyInfo`. -/
def insQueryKeyInfo : List Char :=
  "INSERT INTO dbmirror_pendingdata (SeqId,IsKey,Data) VALUES(currval('dbmirror_pending_seqid_seq'),'t',$1)".toList

/-- Text of the payload insert of `storeData`. -/
def insQueryData : List Char :=
  "INSERT INTO dbmirror_pendingdata (SeqId,IsKey,Data) VALUES(currval('dbmirror_pending_seqid_seq'),$1,$2)".toList

/-- Embedding of `storeKeyInfo`: the `int` returned and the session after it. -/
def storeKeyInfo (h : Host) (s : Session) (tTupleData : Option HeapTuple)
    (tTupleDesc : TupleDesc) (tableOid : Nat) : Except Err (Int × Session) :=
  if h.SPI_prepare insQueryKeyInfo = false then Except.ok (-1, s)
  else
    match packageData h tTupleData tTupleDesc tableOid FieldUsage.PRIMARY with
    | none => Except.error Err.noPrimaryKey
    | some cpKeyData =>
      let iRetCode := h.SPI_execp insQueryKeyInfo
      if iRetCode ≠ SPI_OK_INSERT then Except.error Err.errorInsertingRow
      else
        match insertPendingData s true cpKeyData.vardata with
        | Except.error e => Except.error e
        | Except.ok s1 => Except.ok (0, s1)

/-- Embedding of `storeData`. -/
def storeData (h : Host) (s : Session) (tTupleData : Option HeapTuple)
    (tTupleDesc : TupleDesc) (tableOid : Nat) (isKey : Bool) (eKeyUsage : FieldUsage) :
    Except Err (Int × Session) :=
  if h.SPI_prepare insQueryData = false then Except.ok (-1, s)
  else
    match packageData h tTupleData tTupleDesc tableOid eKeyUsage with
    | none => Except.error Err.tableLacksPrimaryKey
    | some cpKeyData =>
      let iRetValue := h.SPI_execp insQueryData
      if iRetValue ≠ SPI_OK_INSERT then Except.ok (-1, s)
      else
        match insertPendingData s isKey cpKeyData.vardata with
        | Except.error e => Except.error e
        | Except.ok s1 => Except.ok (0, s1)

/-- The key payload of a delete or an update: lines 267-270 and 285-288. -/
def storeKeyPayload (h : Host) (s : Session) (tBeforeTuple : Option HeapTuple)
    (tTupDesc : TupleDesc) (tableOid : Nat) (verbose : Bool) : Except Err (Int × Session) :=
  if verbose = true then storeData h s tBeforeTuple tTupDesc tableOid true FieldUsage.ALLKEYS
  else storeKeyInfo h s tBeforeTuple tTupDesc tableOid

/-- Embedding of `storePending`. -/
def storePending (h : Host) (s : Session) (cpTableName : List Char)
    (tBeforeTuple tAfterTuple : Option HeapTuple) (tTupDesc : TupleDesc) (tableOid : Nat)
    (cOp : Char) (verbose : Bool) : Except Err (Int × Session) :=
  if h.SPI_prepare cpQueryBase = false then Except.error Err.errorCreatingPlan
  else
    let iResult := h.SPI_execp cpQueryBase
    let s1 := if iResult = SPI_OK_INSERT then
        insertPending s (cstr cpTableName) cOp h.GetCurrentTransactionId
      else s
    if cOp = 'd' then storeKeyPayload h s1 tBeforeTuple tTupDesc tableOid verbose
    else if cOp = 'i' then storeData h s1 tAfterTuple tTupDesc tableOid false FieldUsage.ALL
    else
      match storeKeyPayload h s1 tBeforeTuple tTupDesc tableOid verbose with
      | Except.error e => Except.error e
      | Except.ok (iResult1, s2) =>
        if iResult1 ≠ 0 then Except.ok (iResult1, s2)
        else storeData h s2 tAfterTuple tTupDesc tableOid false FieldUsage.ALL

/-! ## The trigger (`recordchange`) -/

/-- The operation that fired the trigger, as the macros `TRIGGER_FIRED_BY_UPDATE`,
`_INSERT` and `_DELETE` classify `tg_event`; `OTHER` is any event none of them accepts. -/
inductive TriggerOp where
  | INSERT
  | DELETE
  | UPDATE
  | OTHER
  deriving DecidableEq, Repr

/-- The trigger registration: `tgnargs` is the length of `tgargs`. -/
structure Trigger where
  tgargs : List (List Char)
  deriving DecidableEq, Repr

/-- The relation the trigger is attached to: its name, the name of its schema, its descriptor. -/
structure Relation where
  relname : List Char
  nspname : List Char
  rd_att : TupleDesc
  deriving DecidableEq, Repr

/-- The trigger call context. -/
structure TriggerData where
  tg_event : TriggerOp
  tg_relation : Relation
  tg_trigtuple : HeapTuple
  tg_newtuple : HeapTuple
  tg_trigger : Trigger
  deriving DecidableEq, Repr

/-- Lines 136-140: the verbose flag. -/
def verboseMode (trigger : Trigger) : Bool :=
  match trigger.tgargs with
  | [] => false
  | arg0 :: _ => strcmpEq arg0 "verbose".toList

/-- Lines 147-150: the schema-qualified, quoted table name. -/
def fullyqualtblname (rel : Relation) : List Char :=
  DQUOTE :: cstr rel.nspname ++ [DQUOTE, '.', DQUOTE] ++ cstr rel.relname ++ [DQUOTE]

/-- Embedding of `recordchange`; `none` as context means the function was not called
as a trigger. The value returned is the tuple handed back to the executor. -/
def recordchange (h : Host) (s : Session) (context : Option TriggerData) :
    Except Err (Option HeapTuple × Session) :=
  match context with
  | none => Except.ok (none, s)
  | some trigdata =>
    if h.SPI_connect < 0 then Except.error Err.couldNotConnect
    else
      let verbose := verboseMode trigdata.tg_trigger
      let tblname := fullyqualtblname trigdata.tg_relation
      let tupdesc := trigdata.tg_relation.rd_att
      let run := fun (retTuple : HeapTuple) (beforeTuple afterTuple : Option HeapTuple) (op : Char) =>
        match storePending h s tblname beforeTuple afterTuple tupdesc retTuple.t_tableOid op verbose with
        | Except.error e => Except.error e
        | Except.ok (iResult, s1) =>
          if iResult ≠ 0 then Except.error Err.couldNotBeMirrored
          else Except.ok (some retTuple, s1)
      match trigdata.tg_event with
      | TriggerOp.UPDATE =>
        run trigdata.tg_newtuple (some trigdata.tg_trigtuple) (some trigdata.tg_newtuple) 'u'
      | TriggerOp.INSERT => run trigdata.tg_trigtuple none (some trigdata.tg_trigtuple) 'i'
      | TriggerOp.DELETE => run trigdata.tg_trigtuple (some trigdata.tg_trigtuple) none 'd'
      | TriggerOp.OTHER => Except.error Err.unknownOperation

/-- The tuple `recordchange` returns for an event (`retTuple`): the new tuple for an
update, the trigger tuple otherwise. Its `t_tableOid` is the table OID handed to
`storePending`. -/
def retTupleOf (trigdata : TriggerData) : HeapTuple :=
  match trigdata.tg_event with
  | TriggerOp.UPDATE => trigdata.tg_newtuple
  | _ => trigdata.tg_trigtuple

/-- The header row of an event: the next sequence id, the table name, the operation
code and the transaction id. -/
def headerRow (h : Host) (s : Session) (trigdata : TriggerData) (op : Char) : PendingRow :=
  { SeqId := s.seqLast + 1, TableName := fullyqualtblname trigdata.tg_relation, Op := op,
    XID := h.GetCurrentTransactionId }

/-- The session after an event that wrote the header `hdr` and the payload rows
`rows`: both logs grow at the end, nothing else in them changes. -/
def sessionWith (s : Session) (hdr : PendingRow) (rows : List PendingDataRow) : Session :=
  { pending := s.pending ++ [hdr], pendingdata := s.pendingdata ++ rows,
    seqLast := s.seqLast + 1, currval := some (s.seqLast + 1) }

/-- The session after the host has dealt with the outcome of an event. A hard error
leaves `recordchange` through the error exit of the host, which aborts the statement
and rolls back what the event wrote (sections 5 and 7 of the specification); an event
that returns keeps its writes. -/
def sessionAfter (s : Session) (r : Except Err (Option HeapTuple × Session)) : Session :=
  match r with
  | Except.error _ => s
  | Except.ok (_, s1) => s1

/-! ## Concrete inputs used by the examples

The table `t(id int primary key, name text)` of the scenarios has OID 16384; the
table with OID 16385 has the same columns, its column `id` is also a foreign key;
any other table has no primary key. -/

/-- The descriptor of `t(id, name)`. -/
def exampleDesc : TupleDesc :=
  { attrs := [{ attname := "id".toList, attisdropped := false },
              { attname := "name".toList, attisdropped := false }] }

/-- Catalog answers of the example host. -/
def exampleCatalog (q : List Char) : SPIResult :=
  if q = primaryKeyQuery 16384 then { ret := SPI_OK_SELECT, processed := 1, keys := [1] }
  else if q = foreignKeyQuery 16384 then { ret := SPI_OK_SELECT, processed := 1, keys := [] }
  else if q = primaryKeyQuery 16385 then { ret := SPI_OK_SELECT, processed := 1, keys := [1] }
  else if q = foreignKeyQuery 16385 then { ret := SPI_OK_SELECT, processed := 1, keys := [1] }
  else { ret := SPI_OK_SELECT, processed := 0, keys := [] }

/-- A host whose SPI calls all succeed, in transaction 700. -/
def exampleHost : Host :=
  { SPI_connect := 1
    SPI_prepare := fun _ => true
    SPI_execp := fun _ => SPI_OK_INSERT
    SPI_exec := exampleCatalog
    GetCurrentTransactionId := 700 }

/-- The row `(1, A)` of `t`. -/
def rowBefore : HeapTuple := { t_tableOid := 16384, values := [some "1".toList, some "A".toList] }

/-- The row `(1, A\B)` of `t`: the name holds one backslash. -/
def rowAfter : HeapTuple := { t_tableOid := 16384, values := [some "1".toList, some "A\\B".toList] }

/-- The row `(1, A)` of the table 16385, whose `id` is a primary and a foreign key. -/
def rowKeyed : HeapTuple := { t_tableOid := 16385, values := [some "1".toList, some "A".toList] }

/-- The row `(1, A)` of the table 16386, which has no primary key. -/
def rowUnkeyed : HeapTuple := { t_tableOid := 16386, values := [some "1".toList, some "A".toList] }

/-- An empty log. -/
def emptySession : Session := { pending := [], pendingdata := [], seqLast := 0, currval := none }

/-- A table with the two columns `a` and `b`. -/
def twoColumnDesc : TupleDesc :=
  { attrs := [{ attname := "a".toList, attisdropped := false },
              { attname := "b".toList, attisdropped := false }] }

/-- A table with the single column named `a"= "b`. -/
def quotedNameDesc : TupleDesc :=
  { attrs := [{ attname := "a\"= \"b".toList, attisdropped := false }] }

/-- A row of two nulls. -/
def twoNullRow : HeapTuple := { t_tableOid := 16384, values := [none, none] }

/-- A row of one null. -/
def oneNullRow : HeapTuple := { t_tableOid := 16384, values := [none] }

/-- The relation `public.t` of the scenarios. -/
def exampleRelation : Relation :=
  { relname := "t".toList, nspname := "public".toList, rd_att := exampleDesc }

/-- A trigger registered without arguments. -/
def plainTrigger : Trigger := { tgargs := [] }

/-- A trigger registered with the argument `verbose`. -/
def verboseTrigger : Trigger := { tgargs := ["verbose".toList] }

/-- The update of the row `(1, A)` of `t` into `(1, A\B)`, not verbose. -/
def exampleUpdate : TriggerData :=
  { tg_event := TriggerOp.UPDATE, tg_relation := exampleRelation, tg_trigtuple := rowBefore,
    tg_newtuple := rowAfter, tg_trigger := plainTrigger }

/-- The delete of the row `(1, A)` of `t`, not verbose. -/
def exampleDelete : TriggerData :=
  { tg_event := TriggerOp.DELETE, tg_relation := exampleRelation, tg_trigtuple := rowBefore,
    tg_newtuple := rowBefore, tg_trigger := plainTrigger }

/-- The insert of the row `(1, A\B)` into `t`. -/
def exampleInsert : TriggerData :=
  { tg_event := TriggerOp.INSERT, tg_relation := exampleRelation, tg_trigtuple := rowAfter,
    tg_newtuple := rowAfter, tg_trigger := plainTrigger }

/-- The verbose delete of the row `(1, A)` of the table 16385. -/
def verboseDelete : TriggerData :=
  { tg_event := TriggerOp.DELETE, tg_relation := exampleRelation, tg_trigtuple := rowKeyed,
    tg_newtuple := rowKeyed, tg_trigger := verboseTrigger }

/-- The delete of the row `(1, A)` of the table 16386, which has no primary key. -/
def unkeyedDelete : TriggerData :=
  { tg_event := TriggerOp.DELETE, tg_relation := exampleRelation, tg_trigtuple := rowUnkeyed,
    tg_newtuple := rowUnkeyed, tg_trigger := plainTrigger }

/-! ## Sequence mirroring (`setval_mirror`, `setval3_mirror`, `nextval_mirror`) -/

/-- The native sequence primitives of the host and its relation-name lookup. The
primitives return the new value of the sequence (a `Datum` read back as `int64`);
the sequences mirrored are not the sequence of the log itself. -/
structure SeqHost where
  setval_oid : Nat → Int → Int
  setval3_oid : Nat → Int → Bool → Int
  nextval_oid : Nat → Int
  get_rel_name : Nat → List Char

/-- The value of a `Datum` read as a signed 64-bit integer (`DatumGetInt64`). -/
def toInt64 (x : Int) : Int := (x + 2 ^ 63) % 2 ^ 64 - 2 ^ 63

/-- The conversion `INT64_FORMAT` (`%lld`) of a signed 64-bit value. -/
def sprintf_lld (v : Int) : List Char :=
  if v < 0 then '-' :: natDigits 20 (-v).toNat else natDigits 20 v.toNat

/-- What `snprintf(buf, size, ...)` leaves in `buf` for a formatted text: at most
`size - 1` bytes of it (followed by the terminator). -/
def snprintf (size : Nat) (text : List Char) : List Char := text.take (size - 1)

/-- Text of the header insert of `saveSequenceUpdate`. -/
def insertQuery : List Char :=
  "INSERT INTO dbmirror_Pending (TableName,Op,XID) VALUES($1,'s',$2)".toList

/-- Text of the payload insert of `saveSequenceUpdate`. -/
def insertDataQuery : List Char :=
  "INSERT INTO dbmirror_PendingData(SeqId,IsKey,Data) VALUES (currval('dbmirror_pending_seqid_seq'),'t',$1)".toList

/-- Line 777: the text of the payload, in the 64-byte buffer `nextSequenceText`. -/
def nextSequenceText (nextValue : Int) (iscalled : Bool) : List Char :=
  snprintf 64 (sprintf_lld nextValue ++ [',', SQUOTE, if iscalled = true then 't' else 'f', SQUOTE])

/-- Embedding of `saveSequenceUpdate`: the session after it. -/
def saveSequenceUpdate (h : Host) (q : SeqHost) (s : Session) (relid : Nat) (nextValue : Int)
    (iscalled : Bool) : Except Err Session :=
  if h.SPI_connect < 0 then Except.error Err.sequpdateCouldNotConnect
  else if h.SPI_prepare insertQuery = false ∨ h.SPI_prepare insertDataQuery = false then
    Except.error Err.sequpdateErrorCreatingPlan
  else if h.SPI_execp insertQuery ≠ SPI_OK_INSERT then Except.error Err.errorInsertingPending
  else
    let s1 := insertPending s (cstr (q.get_rel_name relid)) 's' h.GetCurrentTransactionId
    if h.SPI_execp insertDataQuery ≠ SPI_OK_INSERT then Except.error Err.errorInsertingPendingData
    else insertPendingData s1 true (cstr (nextSequenceText nextValue iscalled))

/-- Embedding of `setval_mirror`: the value returned and the session after it. -/
def setval_mirror (h : Host) (q : SeqHost) (s : Session) (relid : Nat) (next : Int) :
    Except Err (Int × Session) :=
  let result := toInt64 (q.setval_oid relid next)
  match saveSequenceUpdate h q s relid result true with
  | Except.error e => Except.error e
  | Except.ok s1 => Except.ok (result, s1)

/-- Embedding of `setval3_mirror`. -/
def setval3_mirror (h : Host) (q : SeqHost) (s : Session) (relid : Nat) (next : Int)
    (iscalled : Bool) : Except Err (Int × Session) :=
  let result := toInt64 (q.setval3_oid relid next iscalled)
  match saveSequenceUpdate h q s relid result iscalled with
  | Except.error e => Except.error e
  | Except.ok s1 => Except.ok (result, s1)

/-- Embedding of `nextval_mirror`. -/
def nextval_mirror (h : Host) (q : SeqHost) (s : Session) (relid : Nat) :
    Except Err (Int × Session) :=
  let result := toInt64 (q.nextval_oid relid)
  match saveSequenceUpdate h q s relid result true with
  | Except.error e => Except.error e
  | Except.ok s1 => Except.ok (result, s1)

/-! ## More of the specification's words -/

/-- Decimal representation of a natural number: its base-10 digits, most significant
first, `0` for zero. -/
def decimalNat (n : Nat) : List Char :=
  if n = 0 then ['0'] else (Nat.digits 10 n).reverse.map Nat.digitChar

/-- Decimal representation of an integer: a minus sign for a negative value, then the
decimal representation of its absolute value. -/
def decimalInt (v : Int) : List Char :=
  if v < 0 then '-' :: decimalNat v.natAbs else decimalNat v.natAbs

/-- The payload text of a sequence event: the value in decimal, a comma, and the
is-called flag as `t` or `f` between single quotes. -/
def sequenceText (v : Int) (iscalled : Bool) : List Char :=
  decimalInt v ++ [',', SQUOTE, if iscalled = true then 't' else 'f', SQUOTE]

/-- The number of bytes of a value that are a backslash or a single quote. -/
def specialCount (v : List Char) : Nat :=
  v.countP (fun c => decide (c = BACKSLASH ∨ c = SQUOTE))

/-- The same row with the value `v` in column `c` (columns are numbered from 1). -/
def withValue (t : HeapTuple) (c : Nat) (v : List Char) : HeapTuple :=
  { t with values := t.values.set (c - 1) (some v) }

/-! ## Concrete inputs of the later examples -/

/-- The example host with a header insert whose execution returns the failure code -1;
every other SPI call succeeds. -/
def headerFailHost : Host :=
  { exampleHost with SPI_execp := fun q => if q = cpQueryBase then -1 else SPI_OK_INSERT }

/-- The log of a session after the insert of `(1, A)` into `t`: one header and its
payload row. -/
def oneEventSession : Session :=
  { pending := [{ SeqId := 1, TableName := "\"public\".\"t\"".toList, Op := 'i', XID := 700 }],
    pendingdata := [{ SeqId := 1, IsKey := false, Data := "\"id\"='1' \"name\"='A' ".toList }],
    seqLast := 1, currval := some 1 }

/-- The insert of the row `(1, A)` into `t`. -/
def firstInsert : TriggerData :=
  { tg_event := TriggerOp.INSERT, tg_relation := exampleRelation, tg_trigtuple := rowBefore,
    tg_newtuple := rowBefore, tg_trigger := plainTrigger }

/-- The row `(1, O'Brien)` of `t`. -/
def rowOBrien : HeapTuple :=
  { t_tableOid := 16384, values := [some "1".toList, some "O'Brien".toList] }

/-- The insert of `(1, O'Brien)` into `t`. -/
def insertOBrien : TriggerData :=
  { tg_event := TriggerOp.INSERT, tg_relation := exampleRelation, tg_trigtuple := rowOBrien,
    tg_newtuple := rowOBrien, tg_trigger := plainTrigger }

/-- A trigger fired by an operation that is not an insert, an update or a delete. -/
def otherEvent : TriggerData :=
  { tg_event := TriggerOp.OTHER, tg_relation := exampleRelation, tg_trigtuple := rowBefore,
    tg_newtuple := rowBefore, tg_trigger := plainTrigger }

/-- A sequence host: the sequence 16400 is named `s`; `setval` returns the value set,
`nextval` returns 42. -/
def exampleSeqHost : SeqHost :=
  { setval_oid := fun _ next => next
    setval3_oid := fun _ next _ => next
    nextval_oid := fun _ => 42
    get_rel_name := fun _ => "s".toList }

/-- The row `(1, null)` of `t`. -/
def rowNullName : HeapTuple := { t_tableOid := 16384, values := [some "1".toList, none] }

/-- The row `(1, '')` of `t`: the name is the empty string. -/
def rowEmptyName : HeapTuple := { t_tableOid := 16384, values := [some "1".toList, some []] }

/-- A trigger registered with the arguments `verbose` and `x`. -/
def verboseTwoArgs : Trigger := { tgargs := ["verbose".toList, "x".toList] }

/-- A trigger registered with the argument `Verbose` (capital V). -/
def capitalTrigger : Trigger := { tgargs := ["Verbose".toList] }

/-! ## The encoder with every store checked against the allocated size

The same statements as `formatLoop`, `packageValue`, `packageColumn` and `columnLoop`,
where a store is refused (`none`) when it would pass the end of the allocated block,
and a growth loop is refused when the used count exceeds the allocated size (the `int`
difference `iDataBlockSize - iUsedDataBlock` would be negative). -/

/-- The capacity of the buffer is a positive multiple of `BUFFER_SIZE`. -/
def CapacityOK (st : DataBlock) : Prop :=
  ∃ m : Nat, 0 < m ∧ st.iDataBlockSize = m * BUFFER_SIZE

/-- A store of the bytes `bs` and of `terminator` more bytes (the `NUL` that `sprintf`
appends) at `cpDataBlock + iUsedDataBlock`, refused when the remaining capacity is
smaller than the number of bytes stored. -/
def DataBlock.storeChecked (st : DataBlock) (bs : List Char) (terminator : Nat) :
    Option DataBlock :=
  if bs.length + terminator ≤ st.iDataBlockSize - st.iUsedDataBlock ∧
      st.iUsedDataBlock ≤ st.iDataBlockSize then some (st.store bs)
  else none

/-- The growth loop, refused when the used count exceeds the allocated size. -/
def growChecked (need : Nat) (st : DataBlock) : Option DataBlock :=
  if st.iUsedDataBlock ≤ st.iDataBlockSize then some (growBlock need st) else none

/-- The format loop with checked stores. -/
def formatLoopChecked : List Char → DataBlock → Option DataBlock
  | [], st => some st
  | c :: rest, st =>
    if c = NUL then some st
    else
      match growChecked 2 st with
      | none => none
      | some st1 =>
        match (if c = BACKSLASH ∨ c = SQUOTE then
            (st1.storeChecked [c] 0).map (fun x => x.advance 1) else some st1) with
        | none => none
        | some st2 =>
          match st2.storeChecked [c] 0 with
          | none => none
          | some st3 => formatLoopChecked rest (st3.advance 1)

/-- Lines 603-656 with checked stores. -/
def packageValueChecked (cpFieldData : Option (List Char)) (st2 : DataBlock) :
    Option DataBlock :=
  match cpFieldData with
  | none => (st2.storeChecked [' '] 1).map (fun x => x.advance 1)
  | some cpUnFormatedPtr =>
    match st2.storeChecked [SQUOTE] 0 with
    | none => none
    | some x =>
      match formatLoopChecked cpUnFormatedPtr (x.advance 1) with
      | none => none
      | some st4 =>
        match growChecked 3 st4 with
        | none => none
        | some st5 => (st5.storeChecked [SQUOTE, ' '] 1).map (fun y => y.advance 2)

/-- Body of the column loop with checked stores. -/
def packageColumnChecked (eKeyUsage : FieldUsage) (tpPKeys tpFKeys : Option (List Int))
    (tTupleData : Option HeapTuple) (iColumnCounter : Nat) (att : FormData_pg_attribute)
    (st : DataBlock) : Option DataBlock :=
  if skipColumn eKeyUsage tpPKeys tpFKeys iColumnCounter then some st
  else if att.attisdropped then some st
  else
    let cpFieldName := att.attname
    match growChecked (strlen cpFieldName + 6) st with
    | none => none
    | some st1 =>
      match st1.storeChecked (DQUOTE :: cstr cpFieldName ++ [DQUOTE, '=']) 1 with
      | none => none
      | some x =>
        packageValueChecked (SPI_getvalue tTupleData iColumnCounter)
          (x.advance (strlen cpFieldName + 3))

/-- The column loop with checked stores. -/
def columnLoopChecked (eKeyUsage : FieldUsage) (tpPKeys tpFKeys : Option (List Int))
    (tTupleData : Option HeapTuple) :
    Nat → List FormData_pg_attribute → DataBlock → Option DataBlock
  | _, [], st => some st
  | iColumnCounter, att :: atts, st =>
    match packageColumnChecked eKeyUsage tpPKeys tpFKeys tTupleData iColumnCounter att st with
    | none => none
    | some st1 =>
      columnLoopChecked eKeyUsage tpPKeys tpFKeys tTupleData (iColumnCounter + 1) atts st1

/-! ## The catalog queries and their buffer -/

/-- The `queryBase` of `getPrimaryKey`. -/
def primaryKeyQueryBase : List Char :=
  "SELECT indkey FROM pg_index WHERE indisprimary='t' AND indrelid=".toList

/-- The `queryBase` of `getForeignKey`. -/
def foreignKeyQueryBase : List Char :=
  "SELECT array_cat_agg(conkey) FROM pg_constraint WHERE contype = 'f' AND conrelid=".toList

/-- The size of the buffer allocated for a query:
`SPI_palloc(strlen(queryBase) + MAX_OID_LEN + 1)`. -/
def queryBufferSize (queryBase : List Char) : Nat := strlen queryBase + MAX_OID_LEN + 1

/-! ## C strings: basic facts -/

theorem cstr_length (l : List Char) : (cstr l).length = strlen l := by
  induction l with
  | nil => rfl
  | cons c cs ih =>
    by_cases hc : c = NUL
    · simp [cstr, strlen, hc]
    · simp [cstr, strlen, hc, ih]

theorem nul_not_mem_cstr (l : List Char) : NUL ∉ cstr l := by
  induction l with
  | nil => simp [cstr]
  | cons c cs ih =>
    by_cases hc : c = NUL
    · simp [cstr, hc]
    · simp only [cstr, hc, if_false, List.mem_cons, not_or]
      exact ⟨fun h => hc h.symm, ih⟩

theorem cstr_eq_self {l : List Char} (hl : NUL ∉ l) : cstr l = l := by
  induction l with
  | nil => rfl
  | cons c cs ih =>
    simp only [List.mem_cons, not_or] at hl
    have hc : c ≠ NUL := fun h => hl.1 h.symm
    simp [cstr, hc, ih hl.2]

theorem strlen_eq_length {l : List Char} (hl : NUL ∉ l) : strlen l = l.length := by
  rw [← cstr_length, cstr_eq_self hl]

theorem nul_not_mem_escapeValue {v : List Char} (hv : NUL ∉ v) : NUL ∉ escapeValue v := by
  induction v with
  | nil => simp [escapeValue]
  | cons c cs ih =>
    simp only [List.mem_cons, not_or] at hv
    have ih1 := ih hv.2
    simp only [escapeValue, List.flatMap_cons, List.mem_append, not_or] at ih1 ⊢
    refine ⟨?_, ih1⟩
    split <;> simp [hv.1]

theorem nul_not_mem_columnToken {name : List Char} {value : Option (List Char)}
    (hn : NUL ∉ name) (hv : ∀ v, value = some v → NUL ∉ v) :
    NUL ∉ columnToken name value := by
  have h1 : NUL ≠ DQUOTE := by decide
  have h2 : NUL ≠ SQUOTE := by decide
  have h3 : NUL ≠ '=' := by decide
  have h4 : NUL ≠ ' ' := by decide
  cases value with
  | none => simp [columnToken, hn, h1, h3, h4]
  | some v =>
    have := nul_not_mem_escapeValue (hv v rfl)
    simp [columnToken, hn, h1, h2, h3, h4, this]

/-! ## The buffer: growth keeps the content, stores append -/

theorem growLoop_frame (fuel need : Nat) (st : DataBlock) :
    (growLoop fuel need st).cpDataBlock = st.cpDataBlock ∧
    (growLoop fuel need st).iUsedDataBlock = st.iUsedDataBlock := by
  induction fuel generalizing st with
  | zero => simp [growLoop]
  | succ n ih =>
    simp only [growLoop]
    split
    · exact ih _
    · exact ⟨rfl, rfl⟩

theorem growBlock_data (need : Nat) (st : DataBlock) :
    (growBlock need st).cpDataBlock = st.cpDataBlock := (growLoop_frame need need st).1

theorem growBlock_used (need : Nat) (st : DataBlock) :
    (growBlock need st).iUsedDataBlock = st.iUsedDataBlock := (growLoop_frame need need st).2

theorem growBlock_synced {need : Nat} {st : DataBlock} (hs : Synced st) :
    Synced (growBlock need st) := by
  unfold Synced at *
  rw [growBlock_data, growBlock_used, hs]

theorem growLoop_exit (fuel need : Nat) (st : DataBlock)
    (hu : st.iUsedDataBlock ≤ st.iDataBlockSize)
    (hf : need ≤ (st.iDataBlockSize - st.iUsedDataBlock) + fuel * BUFFER_SIZE) :
    ¬ ((growLoop fuel need st).iDataBlockSize - (growLoop fuel need st).iUsedDataBlock < need) := by
  induction fuel generalizing st with
  | zero =>
    simp only [growLoop]
    omega
  | succ n ih =>
    simp only [growLoop]
    split
    · apply ih
      · show st.iUsedDataBlock ≤ st.iDataBlockSize + BUFFER_SIZE
        omega
      · show need ≤ (st.iDataBlockSize + BUFFER_SIZE - st.iUsedDataBlock) + n * BUFFER_SIZE
        have : (n + 1) * BUFFER_SIZE = n * BUFFER_SIZE + BUFFER_SIZE := by ring
        omega
    · assumption

/-- The rounds given to the growth loop are enough: when `growBlock` returns, the
condition of the `while` is false. -/
theorem growBlock_exit (need : Nat) (st : DataBlock)
    (hu : st.iUsedDataBlock ≤ st.iDataBlockSize) :
    ¬ ((growBlock need st).iDataBlockSize - (growBlock need st).iUsedDataBlock < need) := by
  apply growLoop_exit need need st hu
  have : need ≤ need * BUFFER_SIZE := Nat.le_mul_of_pos_right need (by decide)
  omega

theorem store_advance_data {st : DataBlock} (hs : Synced st) (bs : List Char) (n : Nat) :
    ((st.store bs).advance n).cpDataBlock = st.cpDataBlock ++ bs := by
  unfold Synced at hs
  simp [DataBlock.store, DataBlock.advance, hs]

theorem store_advance_synced {st : DataBlock} (hs : Synced st) (bs : List Char) (n : Nat)
    (hn : n = bs.length) : Synced ((st.store bs).advance n) := by
  unfold Synced at *
  simp [DataBlock.store, DataBlock.advance, hs, hn]

theorem formatLoop_spec (v : List Char) (st : DataBlock) (hs : Synced st) :
    (formatLoop v st).cpDataBlock = st.cpDataBlock ++ escapeValue (cstr v) ∧
    Synced (formatLoop v st) := by
  induction v generalizing st with
  | nil => simp [formatLoop, cstr, escapeValue, hs]
  | cons c cs ih =>
    by_cases hc : c = NUL
    · simp [formatLoop, cstr, escapeValue, hc, hs]
    · have hg : Synced (growBlock 2 st) := growBlock_synced hs
      by_cases hq : c = BACKSLASH ∨ c = SQUOTE
      · have h1 := store_advance_synced hg [c] 1 rfl
        have h2 := store_advance_synced h1 [c] 1 rfl
        have := ih _ h2
        simp only [formatLoop, hc, hq, if_true, if_false]
        refine ⟨?_, this.2⟩
        rw [this.1, store_advance_data h1, store_advance_data hg, growBlock_data]
        simp [cstr, escapeValue, hc, hq]
      · have h1 := store_advance_synced hg [c] 1 rfl
        have := ih _ h1
        simp only [formatLoop, hc, hq, if_false]
        refine ⟨?_, this.2⟩
        rw [this.1, store_advance_data hg, growBlock_data]
        simp [cstr, escapeValue, hc, hq]

/-! ## The encoder writes the tokens of the grammar -/

/-- Bytes the grammar prescribes for a value: one space for a null, else the quoted
escaped value and one space (lemma form). -/
theorem packageValue_spec (v : Option (List Char)) (st : DataBlock) (hs : Synced st) :
    (packageValue v st).cpDataBlock = st.cpDataBlock ++
      (match v.map cstr with
       | none => [' ']
       | some w => SQUOTE :: escapeValue w ++ [SQUOTE, ' ']) ∧
    Synced (packageValue v st) := by
  cases v with
  | none =>
    exact ⟨store_advance_data hs _ _, store_advance_synced hs _ _ rfl⟩
  | some w =>
    have h3 := store_advance_synced hs [SQUOTE] 1 rfl
    have h4 := formatLoop_spec w _ h3
    have h5 : Synced (growBlock 3 (formatLoop w ((st.store [SQUOTE]).advance 1))) :=
      growBlock_synced h4.2
    refine ⟨?_, store_advance_synced h5 _ _ rfl⟩
    simp only [packageValue, Option.map_some']
    rw [store_advance_data h5, growBlock_data, h4.1, store_advance_data hs]
    simp

theorem packageColumn_spec (u : FieldUsage) (pk fk : Option (List Int))
    (tuple : Option HeapTuple) (c : Nat) (att : FormData_pg_attribute) (st : DataBlock)
    (hs : Synced st) :
    (packageColumn u pk fk tuple c att st).cpDataBlock = st.cpDataBlock ++
      (if usedColumn u pk fk (c, att) then columnToken (fieldName att) (fieldValue tuple c)
       else []) ∧
    Synced (packageColumn u pk fk tuple c att st) := by
  by_cases hsk : skipColumn u pk fk c = true
  · simp [packageColumn, usedColumn, hsk, hs]
  · by_cases hd : att.attisdropped = true
    · simp [packageColumn, usedColumn, hsk, hd, hs]
    · have h1 : Synced (growBlock (strlen att.attname + 6) st) := growBlock_synced hs
      have h2 := store_advance_synced h1 (DQUOTE :: cstr att.attname ++ [DQUOTE, '='])
        (strlen att.attname + 3) (by simp [cstr_length])
      have h3 := packageValue_spec (SPI_getvalue tuple c) _ h2
      have e : packageColumn u pk fk tuple c att st =
          packageValue (SPI_getvalue tuple c)
            (((growBlock (strlen att.attname + 6) st).store
              (DQUOTE :: cstr att.attname ++ [DQUOTE, '='])).advance (strlen att.attname + 3)) := by
        simp [packageColumn, hsk, hd]
      have hu : usedColumn u pk fk (c, att) = true := by simp [usedColumn, hsk, hd]
      rw [e, hu]
      refine ⟨?_, h3.2⟩
      rw [h3.1, store_advance_data h1, growBlock_data]
      simp [columnToken, fieldName, fieldValue]

theorem columnLoop_spec (u : FieldUsage) (pk fk : Option (List Int))
    (tuple : Option HeapTuple) (atts : List FormData_pg_attribute) (c : Nat) (st : DataBlock)
    (hs : Synced st) :
    (columnLoop u pk fk tuple c atts st).cpDataBlock = st.cpDataBlock ++
      (atts.enumFrom c).flatMap (fun p =>
        if usedColumn u pk fk p then columnToken (fieldName p.2) (fieldValue tuple p.1)
        else []) ∧
    Synced (columnLoop u pk fk tuple c atts st) := by
  induction atts generalizing c st with
  | nil => simp [columnLoop, hs]
  | cons a as ih =>
    have h1 := packageColumn_spec u pk fk tuple c a st hs
    have h2 := ih (c + 1) _ h1.2
    simp only [columnLoop]
    refine ⟨?_, h2.2⟩
    rw [h2.1, h1.1]
    simp [List.enumFrom_cons]

theorem flatMap_ite_eq_filter {α β : Type} (l : List α) (p : α → Bool) (f : α → List β) :
    l.flatMap (fun x => if p x then f x else []) = (l.filter p).flatMap f := by
  induction l with
  | nil => rfl
  | cons a as ih =>
    by_cases ha : p a = true
    · simp [List.filter_cons, ha, ih]
    · simp [List.filter_cons, ha, ih]

theorem nul_not_mem_flatMap_tokens (tuple : Option HeapTuple)
    (l : List (Nat × FormData_pg_attribute)) :
    NUL ∉ l.flatMap (fun p => columnToken (fieldName p.2) (fieldValue tuple p.1)) := by
  simp only [List.mem_flatMap, not_exists, not_and]
  intro p _
  apply nul_not_mem_columnToken (nul_not_mem_cstr _)
  intro v hv
  unfold fieldValue at hv
  cases hg : SPI_getvalue tuple p.1 with
  | none => simp [hg] at hv
  | some w =>
    simp [hg] at hv
    rw [← hv]
    exact nul_not_mem_cstr _

theorem finishBlock_of_synced {st : DataBlock} (hs : Synced st) (hn : NUL ∉ st.cpDataBlock) :
    finishBlock st =
      { varsize := VARHDRSZ + st.cpDataBlock.length, vardata := st.cpDataBlock } := by
  unfold Synced at hs
  simp [finishBlock, hs, strlen_eq_length hn]

/-- The loop of `packageData`, run from the fresh block, leaves the tokens of the used
columns, in schema order. -/
theorem columnLoop_emptyBlock (u : FieldUsage) (pk fk : Option (List Int))
    (tuple : Option HeapTuple) (d : TupleDesc) :
    finishBlock (columnLoop u pk fk tuple 1 d.attrs emptyBlock) =
      { varsize := VARHDRSZ + (((columns d).filter (usedColumn u pk fk)).flatMap
            (fun p => columnToken (fieldName p.2) (fieldValue tuple p.1))).length,
        vardata := ((columns d).filter (usedColumn u pk fk)).flatMap
            (fun p => columnToken (fieldName p.2) (fieldValue tuple p.1)) } := by
  have hs : Synced emptyBlock := rfl
  have h := columnLoop_spec u pk fk tuple d.attrs 1 emptyBlock hs
  have hd : (columnLoop u pk fk tuple 1 d.attrs emptyBlock).cpDataBlock =
      ((columns d).filter (usedColumn u pk fk)).flatMap
        (fun p => columnToken (fieldName p.2) (fieldValue tuple p.1)) := by
    rw [h.1, flatMap_ite_eq_filter]
    simp [emptyBlock, columns]
  rw [finishBlock_of_synced h.2 (by rw [hd]; exact nul_not_mem_flatMap_tokens _ _), hd]

theorem packageData_eq_some (h : Host) (tuple : Option HeapTuple) (d : TupleDesc) (oid : Nat)
    (u : FieldUsage) (hk : u = FieldUsage.ALL ∨ getPrimaryKey h oid ≠ none) :
    packageData h tuple d oid u =
      some (finishBlock (columnLoop u (loadPKeys h oid u) (loadFKeys h oid u) tuple 1
        d.attrs emptyBlock)) := by
  unfold packageData
  rcases hk with hk | hk
  · simp [hk]
  · by_cases hu : u = FieldUsage.ALL
    · simp [hu]
    · simp [loadPKeys, hu, hk]

theorem packageData_eq_none (h : Host) (tuple : Option HeapTuple) (d : TupleDesc) (oid : Nat)
    (u : FieldUsage) (hu : u ≠ FieldUsage.ALL) (hk : getPrimaryKey h oid = none) :
    packageData h tuple d oid u = none := by
  simp [packageData, loadPKeys, hu, hk]

theorem packageData_vardata (h : Host) (tuple : Option HeapTuple) (d : TupleDesc) (oid : Nat)
    (u : FieldUsage) (block : Varlena) (hb : packageData h tuple d oid u = some block) :
    block.vardata =
      ((columns d).filter (usedColumn u (loadPKeys h oid u) (loadFKeys h oid u))).flatMap
        (fun p => columnToken (fieldName p.2) (fieldValue tuple p.1)) := by
  have hk : u = FieldUsage.ALL ∨ getPrimaryKey h oid ≠ none := by
    by_cases hu : u = FieldUsage.ALL
    · exact Or.inl hu
    · refine Or.inr (fun hn => ?_)
      rw [packageData_eq_none h tuple d oid u hu hn] at hb
      exact Option.noConfusion hb
  rw [packageData_eq_some h tuple d oid u hk, columnLoop_emptyBlock] at hb
  injection hb with hb
  rw [← hb]

/-! ## Claims -/

/-- C1: when `packageData` succeeds, the payload text is the concatenation, in schema
order over the columns the usage test lets through and that are not dropped, of the
column tokens: double quote, column name, double quote, `=`, then one space for a
null, or single quote, escaped value, single quote, space; the escaped value
(`escapeValue`) writes every backslash and single quote twice and copies every other
byte. Names and values are read as C strings (`fieldName`, `fieldValue`). -/
theorem packageData_payload_grammar (h : Host) (tuple : Option HeapTuple) (d : TupleDesc)
    (oid : Nat) (u : FieldUsage) (block : Varlena)
    (hb : packageData h tuple d oid u = some block) :
    block.vardata =
      ((columns d).filter (usedColumn u (loadPKeys h oid u) (loadFKeys h oid u))).flatMap
        (fun p => columnToken (fieldName p.2) (fieldValue tuple p.1)) :=
  packageData_vardata h tuple d oid u block hb

/-- Witness of C1: the row `(1, A\B)` of `t(id, name)` under `ALL`. -/
theorem packageData_payload_grammar_witness :
    packageData exampleHost (some rowAfter) exampleDesc 16384 FieldUsage.ALL =
        some { varsize := 27, vardata := "\"id\"='1' \"name\"='A\\\\B' ".toList } ∧
    "\"id\"='1' \"name\"='A\\\\B' ".toList =
      ((columns exampleDesc).filter
          (usedColumn FieldUsage.ALL (loadPKeys exampleHost 16384 FieldUsage.ALL)
            (loadFKeys exampleHost 16384 FieldUsage.ALL))).flatMap
        (fun p => columnToken (fieldName p.2) (fieldValue (some rowAfter) p.1)) :=
  ⟨by decide,
   packageData_payload_grammar exampleHost (some rowAfter) exampleDesc 16384 FieldUsage.ALL
     { varsize := 27, vardata := "\"id\"='1' \"name\"='A\\\\B' ".toList } (by decide)⟩

/-! ### Values: the token and its decoding -/

theorem emittedValueToken_eq (v : List Char) :
    emittedValueToken v = SQUOTE :: escapeValue (cstr v) ++ [SQUOTE] := by
  have hs : Synced emptyBlock := rfl
  have h := (packageValue_spec (some v) emptyBlock hs).1
  have e : SQUOTE :: escapeValue (cstr v) ++ [SQUOTE, ' '] =
      (SQUOTE :: escapeValue (cstr v) ++ [SQUOTE]) ++ [' '] := by simp
  unfold emittedValueToken
  rw [h]
  simp only [Option.map_some', emptyBlock, List.nil_append]
  rw [e, List.dropLast_concat]

theorem undouble_escapeValue (v : List Char) : undouble (escapeValue v) = some v := by
  induction v with
  | nil => simp [escapeValue, undouble]
  | cons c cs ih =>
    have hcons : escapeValue (c :: cs) =
        (if c = BACKSLASH ∨ c = SQUOTE then [c, c] else [c]) ++ escapeValue cs := by
      simp [escapeValue]
    rw [hcons]
    by_cases hq : c = BACKSLASH ∨ c = SQUOTE
    · simp only [hq, if_true, List.cons_append, List.nil_append, undouble]
      simp [ih]
    · simp only [hq, if_false, List.cons_append, List.nil_append]
      cases hr : escapeValue cs with
      | nil =>
        rw [hr] at ih
        simp only [undouble, Option.some.injEq] at ih
        simp [undouble, hq, ← ih]
      | cons x xs =>
        rw [hr] at ih
        simp [undouble, hq, ih]

theorem decodeValueToken_quoted (w : List Char) :
    decodeValueToken (SQUOTE :: escapeValue w ++ [SQUOTE]) = some w := by
  simp [decodeValueToken, List.getLast?_append, List.dropLast_concat, undouble_escapeValue]

theorem decode_emittedValueToken {v : List Char} (hv : NUL ∉ v) :
    decodeValueToken (emittedValueToken v) = some v := by
  rw [emittedValueToken_eq, cstr_eq_self hv]
  exact decodeValueToken_quoted v

/-- C2: round trip of a value. For a value `v` with no NUL byte, decoding the value
token that `packageData` stores for `v` (strip the surrounding single quotes, read
each doubled backslash or single quote as one byte) gives back `v`; and two such
values with the same value token are equal. -/
theorem value_round_trip (v : List Char) (hv : NUL ∉ v) :
    decodeValueToken (emittedValueToken v) = some v ∧
    ∀ w : List Char, NUL ∉ w → emittedValueToken w = emittedValueToken v → w = v := by
  refine ⟨decode_emittedValueToken hv, ?_⟩
  intro w hw he
  have h1 := decode_emittedValueToken hw
  rw [he, decode_emittedValueToken hv] at h1
  exact (Option.some.inj h1).symm

/-- Witness of C2: the value `O'B\` (a single quote and a backslash). -/
theorem value_round_trip_witness :
    NUL ∉ "O'B\\".toList ∧
    (decodeValueToken (emittedValueToken "O'B\\".toList) = some "O'B\\".toList ∧
     ∀ w : List Char, NUL ∉ w →
       emittedValueToken w = emittedValueToken "O'B\\".toList → w = "O'B\\".toList) :=
  ⟨by decide, value_round_trip "O'B\\".toList (by decide)⟩

/-! ### Reading a payload back -/

theorem append_delim_inj {d : Char} (n1 n2 x1 x2 : List Char) (h1 : d ∉ n1) (h2 : d ∉ n2)
    (he : n1 ++ d :: x1 = n2 ++ d :: x2) : n1 = n2 ∧ x1 = x2 := by
  induction n1 generalizing n2 with
  | nil =>
    cases n2 with
    | nil => simpa using he
    | cons b bs =>
      simp only [List.nil_append, List.cons_append, List.cons.injEq] at he
      simp only [List.mem_cons, not_or] at h2
      exact absurd he.1 h2.1
  | cons a as ih =>
    simp only [List.mem_cons, not_or] at h1
    cases n2 with
    | nil =>
      simp only [List.nil_append, List.cons_append, List.cons.injEq] at he
      exact absurd he.1.symm h1.1
    | cons b bs =>
      simp only [List.mem_cons, not_or] at h2
      simp only [List.cons_append, List.cons.injEq] at he
      have := ih bs h1.2 h2.2 he.2
      exact ⟨by rw [he.1, this.1], this.2⟩

theorem escapeValue_cons (c : Char) (cs : List Char) :
    escapeValue (c :: cs) =
      (if c = BACKSLASH ∨ c = SQUOTE then [c, c] else [c]) ++ escapeValue cs := by
  simp [escapeValue]

theorem escapeValue_nil_tail_ne (c : Char) (cs r1 r2 : List Char) :
    SQUOTE :: ' ' :: r1 ≠ escapeValue (c :: cs) ++ SQUOTE :: ' ' :: r2 := by
  intro he
  rw [escapeValue_cons] at he
  have hsp : (' ' : Char) ≠ SQUOTE := by decide
  by_cases hq : c = BACKSLASH ∨ c = SQUOTE
  · simp only [hq, if_true, List.cons_append, List.nil_append, List.cons.injEq] at he
    exact hsp (he.2.1.trans he.1.symm)
  · simp only [hq, if_false, List.cons_append, List.nil_append, List.cons.injEq] at he
    exact hq (Or.inr he.1.symm)

theorem escapeValue_delim_inj (v1 v2 r1 r2 : List Char)
    (he : escapeValue v1 ++ SQUOTE :: ' ' :: r1 = escapeValue v2 ++ SQUOTE :: ' ' :: r2) :
    v1 = v2 ∧ r1 = r2 := by
  induction v1 generalizing v2 with
  | nil =>
    cases v2 with
    | nil => simpa [escapeValue] using he
    | cons c cs =>
      exact absurd (by simpa [escapeValue] using he) (escapeValue_nil_tail_ne c cs r1 r2)
  | cons a as ih =>
    cases v2 with
    | nil =>
      exact absurd (by simpa [escapeValue] using he.symm) (escapeValue_nil_tail_ne a as r2 r1)
    | cons c cs =>
      rw [escapeValue_cons, escapeValue_cons] at he
      by_cases ha : a = BACKSLASH ∨ a = SQUOTE <;> by_cases hc : c = BACKSLASH ∨ c = SQUOTE
      · simp only [ha, hc, if_true, List.cons_append, List.nil_append, List.cons.injEq] at he
        have := ih cs he.2.2
        exact ⟨by rw [he.1, this.1], this.2⟩
      · simp only [ha, hc, if_true, if_false, List.cons_append, List.nil_append,
          List.cons.injEq] at he
        exact absurd (he.1 ▸ ha) hc
      · simp only [ha, hc, if_true, if_false, List.cons_append, List.nil_append,
          List.cons.injEq] at he
        exact absurd (he.1 ▸ hc) ha
      · simp only [ha, hc, if_false, List.cons_append, List.nil_append, List.cons.injEq] at he
        have := ih cs he.2
        exact ⟨by rw [he.1, this.1], this.2⟩

theorem columnToken_append_inj (n1 n2 : List Char) (v1 v2 : Option (List Char))
    (r1 r2 : List Char) (h1 : DQUOTE ∉ n1) (h2 : DQUOTE ∉ n2)
    (he : columnToken n1 v1 ++ r1 = columnToken n2 v2 ++ r2) :
    n1 = n2 ∧ v1 = v2 ∧ r1 = r2 := by
  have hsp : (' ' : Char) ≠ SQUOTE := by decide
  unfold columnToken at he
  simp only [List.cons_append, List.append_assoc, List.cons.injEq, true_and,
    List.nil_append] at he
  obtain ⟨hn, hx⟩ := append_delim_inj n1 n2 _ _ h1 h2 he
  simp only [List.cons.injEq, true_and] at hx
  refine ⟨hn, ?_⟩
  cases v1 with
  | none =>
    cases v2 with
    | none => simpa using hx
    | some w2 =>
      simp only [List.cons_append, List.nil_append, List.cons.injEq] at hx
      exact absurd hx.1 hsp
  | some w1 =>
    cases v2 with
    | none =>
      simp only [List.cons_append, List.nil_append, List.cons.injEq] at hx
      exact absurd hx.1.symm hsp
    | some w2 =>
      simp only [List.cons_append, List.append_assoc, List.nil_append, List.cons.injEq,
        true_and] at hx
      have := escapeValue_delim_inj w1 w2 r1 r2 hx
      exact ⟨by rw [this.1], this.2⟩

theorem columnToken_ne_nil (n : List Char) (v : Option (List Char)) (r : List Char) :
    columnToken n v ++ r ≠ [] := by
  simp [columnToken]

theorem tokens_inj (l1 l2 : List (List Char × Option (List Char)))
    (h1 : ∀ e ∈ l1, DQUOTE ∉ e.1) (h2 : ∀ e ∈ l2, DQUOTE ∉ e.1)
    (he : l1.flatMap (fun e => columnToken e.1 e.2) = l2.flatMap (fun e => columnToken e.1 e.2)) :
    l1 = l2 := by
  induction l1 generalizing l2 with
  | nil =>
    cases l2 with
    | nil => rfl
    | cons b bs =>
      simp only [List.flatMap_nil, List.flatMap_cons] at he
      exact absurd he.symm (columnToken_ne_nil _ _ _)
  | cons a as ih =>
    cases l2 with
    | nil =>
      simp only [List.flatMap_nil, List.flatMap_cons] at he
      exact absurd he (columnToken_ne_nil _ _ _)
    | cons b bs =>
      simp only [List.flatMap_cons] at he
      obtain ⟨hn, hv, hr⟩ := columnToken_append_inj _ _ _ _ _ _
        (h1 a (List.mem_cons_self _ _)) (h2 b (List.mem_cons_self _ _)) he
      have hab : a = b := Prod.ext hn hv
      have := ih bs (fun e he1 => h1 e (List.mem_cons_of_mem _ he1))
        (fun e he2 => h2 e (List.mem_cons_of_mem _ he2)) hr
      rw [hab, this]

theorem packageData_vardata_encoded (h : Host) (tuple : Option HeapTuple) (d : TupleDesc)
    (oid : Nat) (u : FieldUsage) (block : Varlena)
    (hb : packageData h tuple d oid u = some block) :
    block.vardata =
      (encodedColumns h tuple d oid u).flatMap (fun e => columnToken e.1 e.2) := by
  rw [packageData_vardata h tuple d oid u block hb]
  simp [encodedColumns, List.flatMap_map]

/-- C3 (counterexample): two different sequences of encoded columns, all names and
values free of NUL, get the same payload text: the columns `a` and `b`, both null, and
the single null column named `a"= "b` are both written as `"a"= "b"= `. -/
theorem payload_ambiguous_for_quoted_names :
    (∀ e ∈ encodedColumns exampleHost (some twoNullRow) twoColumnDesc 16384 FieldUsage.ALL,
        NUL ∉ e.1) ∧
    (∀ e ∈ encodedColumns exampleHost (some oneNullRow) quotedNameDesc 16384 FieldUsage.ALL,
        NUL ∉ e.1) ∧
    (packageData exampleHost (some twoNullRow) twoColumnDesc 16384 FieldUsage.ALL).map
        (fun b => b.vardata) = some "\"a\"= \"b\"= ".toList ∧
    (packageData exampleHost (some oneNullRow) quotedNameDesc 16384 FieldUsage.ALL).map
        (fun b => b.vardata) = some "\"a\"= \"b\"= ".toList ∧
    encodedColumns exampleHost (some twoNullRow) twoColumnDesc 16384 FieldUsage.ALL =
        [("a".toList, none), ("b".toList, none)] ∧
    encodedColumns exampleHost (some oneNullRow) quotedNameDesc 16384 FieldUsage.ALL =
        [("a\"= \"b".toList, none)] ∧
    encodedColumns exampleHost (some twoNullRow) twoColumnDesc 16384 FieldUsage.ALL ≠
      encodedColumns exampleHost (some oneNullRow) quotedNameDesc 16384 FieldUsage.ALL := by
  decide

/-- C3 (amended): when no encoded column name contains a double quote, the payload
determines the sequence of encoded columns: two runs of `packageData` that return the
same payload text encoded the same number of columns, with the same names, the same
null flags and the same values. -/
theorem payload_determines_columns (h1 h2 : Host) (t1 t2 : Option HeapTuple)
    (d1 d2 : TupleDesc) (o1 o2 : Nat) (u1 u2 : FieldUsage) (b1 b2 : Varlena)
    (hb1 : packageData h1 t1 d1 o1 u1 = some b1)
    (hb2 : packageData h2 t2 d2 o2 u2 = some b2)
    (hq1 : ∀ e ∈ encodedColumns h1 t1 d1 o1 u1, DQUOTE ∉ e.1)
    (hq2 : ∀ e ∈ encodedColumns h2 t2 d2 o2 u2, DQUOTE ∉ e.1)
    (he : b1.vardata = b2.vardata) :
    encodedColumns h1 t1 d1 o1 u1 = encodedColumns h2 t2 d2 o2 u2 := by
  rw [packageData_vardata_encoded h1 t1 d1 o1 u1 b1 hb1,
    packageData_vardata_encoded h2 t2 d2 o2 u2 b2 hb2] at he
  exact tokens_inj _ _ hq1 hq2 he

/-- Witness of C3 (amended): the key-only payload of `(1, A)` in `t` and the
key-and-foreign-key payload of `(1, A)` in the table 16385 are the same text, and
both encode the single column `id` with value `1`. -/
theorem payload_determines_columns_witness :
    packageData exampleHost (some rowBefore) exampleDesc 16384 FieldUsage.PRIMARY =
        some { varsize := 13, vardata := "\"id\"='1' ".toList } ∧
    packageData exampleHost (some rowKeyed) exampleDesc 16385 FieldUsage.ALLKEYS =
        some { varsize := 13, vardata := "\"id\"='1' ".toList } ∧
    (∀ e ∈ encodedColumns exampleHost (some rowBefore) exampleDesc 16384 FieldUsage.PRIMARY,
        DQUOTE ∉ e.1) ∧
    (∀ e ∈ encodedColumns exampleHost (some rowKeyed) exampleDesc 16385 FieldUsage.ALLKEYS,
        DQUOTE ∉ e.1) ∧
    encodedColumns exampleHost (some rowBefore) exampleDesc 16384 FieldUsage.PRIMARY =
      encodedColumns exampleHost (some rowKeyed) exampleDesc 16385 FieldUsage.ALLKEYS :=
  ⟨by decide, by decide, by decide, by decide,
   payload_determines_columns exampleHost exampleHost (some rowBefore) (some rowKeyed)
     exampleDesc exampleDesc 16384 16385 FieldUsage.PRIMARY FieldUsage.ALLKEYS
     { varsize := 13, vardata := "\"id\"='1' ".toList }
     { varsize := 13, vardata := "\"id\"='1' ".toList }
     (by decide) (by decide) (by decide) (by decide) rfl⟩

/-! ### Which columns a usage lets through -/

theorem keyListHas_eq_inKeys (ks : List Int) (c : Nat) : keyListHas ks c = inKeys ks c := by
  induction ks with
  | nil => simp [keyListHas, inKeys]
  | cons k ks ih =>
    by_cases hk : k = (c : Int)
    · simp [keyListHas, inKeys, hk]
    · have hk2 : ¬ (c : Int) = k := fun e => hk e.symm
      simp only [keyListHas, hk, if_false, ih]
      simp [inKeys, hk2]

theorem usedColumn_ALL (pk fk : Option (List Int)) (p : Nat × FormData_pg_attribute) :
    usedColumn FieldUsage.ALL pk fk p = (true && !p.2.attisdropped) := by
  simp [usedColumn, skipColumn]

theorem usedColumn_PRIMARY (pk : List Int) (p : Nat × FormData_pg_attribute) :
    usedColumn FieldUsage.PRIMARY (some pk) none p = (inKeys pk p.1 && !p.2.attisdropped) := by
  simp only [usedColumn, skipColumn, iIsPrimaryKey, iIsForeignKey, keyListHas_eq_inKeys]
  cases inKeys pk p.1 <;> cases p.2.attisdropped <;> decide

theorem usedColumn_NONPRIMARY (pk : List Int) (p : Nat × FormData_pg_attribute) :
    usedColumn FieldUsage.NONPRIMARY (some pk) none p =
      (!inKeys pk p.1 && !p.2.attisdropped) := by
  simp only [usedColumn, skipColumn, iIsPrimaryKey, iIsForeignKey, keyListHas_eq_inKeys]
  cases inKeys pk p.1 <;> cases p.2.attisdropped <;> decide

theorem usedColumn_ALLKEYS (pk : List Int) (fk : Option (List Int))
    (p : Nat × FormData_pg_attribute) :
    usedColumn FieldUsage.ALLKEYS (some pk) fk p =
      ((inKeys pk p.1 || inKeys (fk.getD []) p.1) && !p.2.attisdropped) := by
  cases fk with
  | none =>
    have hnil : inKeys [] p.1 = false := by simp [inKeys]
    simp only [usedColumn, skipColumn, iIsPrimaryKey, iIsForeignKey, keyListHas_eq_inKeys,
      Option.getD_none, hnil]
    cases inKeys pk p.1 <;> cases p.2.attisdropped <;> decide
  | some ks =>
    simp only [usedColumn, skipColumn, iIsPrimaryKey, iIsForeignKey, keyListHas_eq_inKeys,
      Option.getD_some]
    cases inKeys pk p.1 <;> cases inKeys ks p.1 <;> cases p.2.attisdropped <;> decide

/-- The payload of a successful run, as the tokens of the columns selected by `sel`,
whenever the usage test of the source agrees with `sel` on every column. -/
theorem packageData_tokensOf (h : Host) (tuple : Option HeapTuple) (d : TupleDesc)
    (oid : Nat) (u : FieldUsage) (sel : Nat → Bool)
    (hk : u = FieldUsage.ALL ∨ getPrimaryKey h oid ≠ none)
    (hsel : ∀ p : Nat × FormData_pg_attribute,
      usedColumn u (loadPKeys h oid u) (loadFKeys h oid u) p = (sel p.1 && !p.2.attisdropped)) :
    packageData h tuple d oid u =
      some { varsize := VARHDRSZ + (tokensOf tuple d sel).length,
             vardata := tokensOf tuple d sel } := by
  rw [packageData_eq_some h tuple d oid u hk, columnLoop_emptyBlock]
  have : usedColumn u (loadPKeys h oid u) (loadFKeys h oid u) =
      fun p => (sel p.1 && !p.2.attisdropped) := funext hsel
  rw [this]
  rfl

theorem packageData_policy (h : Host) (tuple : Option HeapTuple) (d : TupleDesc)
    (oid : Nat) (u : FieldUsage) (pk : List Int) (hu : u ≠ FieldUsage.PRIMARY)
    (hpk : u ≠ FieldUsage.ALL → getPrimaryKey h oid = some pk) :
    packageData h tuple d oid u =
      some { varsize := VARHDRSZ +
               (tokensOf tuple d (policyIncludes u pk ((getForeignKey h oid).getD []))).length,
             vardata := tokensOf tuple d (policyIncludes u pk ((getForeignKey h oid).getD [])) } := by
  cases u with
  | PRIMARY => exact absurd rfl hu
  | ALL =>
    apply packageData_tokensOf h tuple d oid _ _ (Or.inl rfl)
    intro p
    rw [usedColumn_ALL]
    rfl
  | NONPRIMARY =>
    have hp := hpk (by decide)
    apply packageData_tokensOf h tuple d oid _ _ (Or.inr (by rw [hp]; exact Option.some_ne_none _))
    intro p
    have e1 : loadPKeys h oid FieldUsage.NONPRIMARY = some pk := by simp [loadPKeys, hp]
    have e2 : loadFKeys h oid FieldUsage.NONPRIMARY = none := by simp [loadFKeys]
    rw [e1, e2, usedColumn_NONPRIMARY]
    rfl
  | ALLKEYS =>
    have hp := hpk (by decide)
    apply packageData_tokensOf h tuple d oid _ _ (Or.inr (by rw [hp]; exact Option.some_ne_none _))
    intro p
    have e1 : loadPKeys h oid FieldUsage.ALLKEYS = some pk := by simp [loadPKeys, hp]
    have e2 : loadFKeys h oid FieldUsage.ALLKEYS = getForeignKey h oid := by simp [loadFKeys]
    rw [e1, e2, usedColumn_ALLKEYS]
    rfl

theorem packageData_PRIMARY (h : Host) (tuple : Option HeapTuple) (d : TupleDesc)
    (oid : Nat) (pk : List Int) (hpk : getPrimaryKey h oid = some pk) :
    packageData h tuple d oid FieldUsage.PRIMARY =
      some { varsize := VARHDRSZ + (tokensOf tuple d (inKeys pk)).length,
             vardata := tokensOf tuple d (inKeys pk) } := by
  apply packageData_tokensOf h tuple d oid _ _ (Or.inr (by rw [hpk]; exact Option.some_ne_none _))
  intro p
  have e1 : loadPKeys h oid FieldUsage.PRIMARY = some pk := by simp [loadPKeys, hpk]
  have e2 : loadFKeys h oid FieldUsage.PRIMARY = none := by simp [loadFKeys]
  rw [e1, e2, usedColumn_PRIMARY]

theorem tokensOf_eq_flatMap_ite (tuple : Option HeapTuple) (d : TupleDesc) (sel : Nat → Bool) :
    tokensOf tuple d sel =
      (columns d).flatMap (fun p =>
        if (sel p.1 && !p.2.attisdropped) = true then
          columnToken (fieldName p.2) (fieldValue tuple p.1)
        else []) := by
  unfold tokensOf
  rw [flatMap_ite_eq_filter]

theorem usedColumn_not_dropped (u : FieldUsage) (pk fk : Option (List Int))
    (p : Nat × FormData_pg_attribute) (hp : usedColumn u pk fk p = true) :
    p.2.attisdropped = false := by
  unfold usedColumn at hp
  cases hd : p.2.attisdropped with
  | false => rfl
  | true => simp [hd] at hp

/-- C4: for a table whose key topology is the primary-key list `pk` and the
foreign-key list of the catalog, the payload of `packageData` is, column by column in
schema order, the token of the column when the column is not dropped and the policy
takes it, and nothing otherwise, where the policy takes every column under `ALL`, the
columns outside `pk` under `NONPRIMARY`, and the columns in `pk` or in the foreign-key
list under `ALLKEYS`. Under every usage, `PRIMARY` included, the payload holds tokens
of non-dropped columns only. -/
theorem inclusion_by_policy (h : Host) (tuple : Option HeapTuple) (d : TupleDesc)
    (oid : Nat) (u : FieldUsage) (pk : List Int) (hu : u ≠ FieldUsage.PRIMARY)
    (hpk : u ≠ FieldUsage.ALL → getPrimaryKey h oid = some pk) :
    (∃ block, packageData h tuple d oid u = some block ∧
      block.vardata = (columns d).flatMap (fun p =>
        if (policyIncludes u pk ((getForeignKey h oid).getD []) p.1 && !p.2.attisdropped) = true
        then columnToken (fieldName p.2) (fieldValue tuple p.1)
        else [])) ∧
    (∀ (u2 : FieldUsage) (b : Varlena), packageData h tuple d oid u2 = some b →
      ∃ sel : Nat × FormData_pg_attribute → Bool,
        (∀ p, sel p = true → p.2.attisdropped = false) ∧
        b.vardata = ((columns d).filter sel).flatMap
          (fun p => columnToken (fieldName p.2) (fieldValue tuple p.1))) := by
  constructor
  · exact ⟨_, packageData_policy h tuple d oid u pk hu hpk, tokensOf_eq_flatMap_ite _ _ _⟩
  · intro u2 b hb
    exact ⟨_, fun p hp => usedColumn_not_dropped _ _ _ p hp,
      packageData_vardata h tuple d oid u2 b hb⟩

/-- Witness of C4: `ALLKEYS` on the table 16385, whose column `id` is a primary and a
foreign key. -/
theorem inclusion_by_policy_witness :
    FieldUsage.ALLKEYS ≠ FieldUsage.PRIMARY ∧
    (FieldUsage.ALLKEYS ≠ FieldUsage.ALL → getPrimaryKey exampleHost 16385 = some [1]) ∧
    ((∃ block, packageData exampleHost (some rowKeyed) exampleDesc 16385 FieldUsage.ALLKEYS =
          some block ∧
      block.vardata = (columns exampleDesc).flatMap (fun p =>
        if (policyIncludes FieldUsage.ALLKEYS [1] ((getForeignKey exampleHost 16385).getD []) p.1
              && !p.2.attisdropped) = true
        then columnToken (fieldName p.2) (fieldValue (some rowKeyed) p.1)
        else [])) ∧
    (∀ (u2 : FieldUsage) (b : Varlena),
      packageData exampleHost (some rowKeyed) exampleDesc 16385 u2 = some b →
      ∃ sel : Nat × FormData_pg_attribute → Bool,
        (∀ p, sel p = true → p.2.attisdropped = false) ∧
        b.vardata = ((columns exampleDesc).filter sel).flatMap
          (fun p => columnToken (fieldName p.2) (fieldValue (some rowKeyed) p.1)))) :=
  ⟨by decide, fun _ => by decide,
   inclusion_by_policy exampleHost (some rowKeyed) exampleDesc 16385 FieldUsage.ALLKEYS [1]
     (by decide) (fun _ => by decide)⟩

/-- C5 (counterexample): in the table 16385 the column `id` (ordinal 1) is a
primary-key and a foreign-key column, so the truth table of the claim leaves it out
and prescribes an empty key-only payload; `packageData` under `PRIMARY` encodes it. -/
theorem keysOnly_keeps_foreign_key_column :
    getPrimaryKey exampleHost 16385 = some [1] ∧
    getForeignKey exampleHost 16385 = some [1] ∧
    policyIncludes FieldUsage.PRIMARY [1] [1] 1 = false ∧
    tokensOf (some rowKeyed) exampleDesc (policyIncludes FieldUsage.PRIMARY [1] [1]) = [] ∧
    packageData exampleHost (some rowKeyed) exampleDesc 16385 FieldUsage.PRIMARY =
      some { varsize := 13, vardata := "\"id\"='1' ".toList } := by
  decide

/-- C5 (amended): under `PRIMARY`, for a table with primary-key list `pk`, the payload
of `packageData` is, column by column in schema order, the token of the column when
the column is in `pk` and not dropped, and nothing otherwise; the foreign keys are not
consulted (they are fetched under `ALLKEYS` only), so the payload is the same for
every host that gives the same primary key. -/
theorem keysOnly_inclusion (h : Host) (tuple : Option HeapTuple) (d : TupleDesc)
    (oid : Nat) (pk : List Int) (hpk : getPrimaryKey h oid = some pk) :
    (∃ block, packageData h tuple d oid FieldUsage.PRIMARY = some block ∧
      block.vardata = (columns d).flatMap (fun p =>
        if (inKeys pk p.1 && !p.2.attisdropped) = true
        then columnToken (fieldName p.2) (fieldValue tuple p.1)
        else [])) ∧
    (∀ h2 : Host, getPrimaryKey h2 oid = some pk →
      packageData h2 tuple d oid FieldUsage.PRIMARY =
        packageData h tuple d oid FieldUsage.PRIMARY) := by
  constructor
  · exact ⟨_, packageData_PRIMARY h tuple d oid pk hpk, tokensOf_eq_flatMap_ite _ _ _⟩
  · intro h2 hpk2
    rw [packageData_PRIMARY h tuple d oid pk hpk, packageData_PRIMARY h2 tuple d oid pk hpk2]

/-- Witness of C5 (amended): the key-only payload of the table 16385. -/
theorem keysOnly_inclusion_witness :
    getPrimaryKey exampleHost 16385 = some [1] ∧
    ((∃ block, packageData exampleHost (some rowKeyed) exampleDesc 16385 FieldUsage.PRIMARY =
          some block ∧
      block.vardata = (columns exampleDesc).flatMap (fun p =>
        if (inKeys [1] p.1 && !p.2.attisdropped) = true
        then columnToken (fieldName p.2) (fieldValue (some rowKeyed) p.1)
        else [])) ∧
    (∀ h2 : Host, getPrimaryKey h2 16385 = some [1] →
      packageData h2 (some rowKeyed) exampleDesc 16385 FieldUsage.PRIMARY =
        packageData exampleHost (some rowKeyed) exampleDesc 16385 FieldUsage.PRIMARY)) :=
  ⟨by decide, keysOnly_inclusion exampleHost (some rowKeyed) exampleDesc 16385 [1] (by decide)⟩

/-! ## The writer and the trigger -/

theorem nul_not_mem_fullyqualtblname (rel : Relation) : NUL ∉ fullyqualtblname rel := by
  have h1 : NUL ≠ DQUOTE := by decide
  have h2 : NUL ≠ '.' := by decide
  simp [fullyqualtblname, nul_not_mem_cstr, h1, h2]

theorem cstr_fullyqualtblname (rel : Relation) :
    cstr (fullyqualtblname rel) = fullyqualtblname rel :=
  cstr_eq_self (nul_not_mem_fullyqualtblname rel)

theorem storeKeyInfo_ok (h : Host) (s : Session) (tuple : Option HeapTuple) (d : TupleDesc)
    (oid id : Nat) (b : Varlena) (hok : HostOK h) (hc : s.currval = some id)
    (hb : packageData h tuple d oid FieldUsage.PRIMARY = some b) :
    storeKeyInfo h s tuple d oid =
      Except.ok (0, { s with pendingdata := s.pendingdata ++
        [{ SeqId := id, IsKey := true, Data := b.vardata }] }) := by
  simp [storeKeyInfo, hok.2.1, hok.2.2, hb, insertPendingData, hc]

theorem storeData_ok (h : Host) (s : Session) (tuple : Option HeapTuple) (d : TupleDesc)
    (oid id : Nat) (isKey : Bool) (u : FieldUsage) (b : Varlena) (hok : HostOK h)
    (hc : s.currval = some id) (hb : packageData h tuple d oid u = some b) :
    storeData h s tuple d oid isKey u =
      Except.ok (0, { s with pendingdata := s.pendingdata ++
        [{ SeqId := id, IsKey := isKey, Data := b.vardata }] }) := by
  simp [storeData, hok.2.1, hok.2.2, hb, insertPendingData, hc]

/-- The usage of the key payload of a delete or an update. -/
theorem storeKeyPayload_ok (h : Host) (s : Session) (tuple : Option HeapTuple) (d : TupleDesc)
    (oid id : Nat) (verbose : Bool) (b : Varlena) (hok : HostOK h) (hc : s.currval = some id)
    (hb : packageData h tuple d oid
      (if verbose = true then FieldUsage.ALLKEYS else FieldUsage.PRIMARY) = some b) :
    storeKeyPayload h s tuple d oid verbose =
      Except.ok (0, { s with pendingdata := s.pendingdata ++
        [{ SeqId := id, IsKey := true, Data := b.vardata }] }) := by
  cases verbose with
  | true =>
    simp only [storeKeyPayload, if_true] at hb ⊢
    exact storeData_ok h s tuple d oid id true _ b hok hc hb
  | false =>
    simp only [storeKeyPayload, Bool.false_eq_true, if_false] at hb ⊢
    exact storeKeyInfo_ok h s tuple d oid id b hok hc hb

theorem recordchange_delete (h : Host) (s : Session) (td : TriggerData) (b : Varlena)
    (hok : HostOK h) (hev : td.tg_event = TriggerOp.DELETE)
    (hb : packageData h (some td.tg_trigtuple) td.tg_relation.rd_att td.tg_trigtuple.t_tableOid
      (if verboseMode td.tg_trigger = true then FieldUsage.ALLKEYS else FieldUsage.PRIMARY)
        = some b) :
    recordchange h s (some td) =
      Except.ok (some td.tg_trigtuple, sessionWith s (headerRow h s td 'd')
        [{ SeqId := s.seqLast + 1, IsKey := true, Data := b.vardata }]) := by
  have hcon : ¬ h.SPI_connect < 0 := not_lt.mpr hok.1
  have hkp := storeKeyPayload_ok h
    (insertPending s (cstr (fullyqualtblname td.tg_relation)) 'd' h.GetCurrentTransactionId)
    (some td.tg_trigtuple) td.tg_relation.rd_att td.tg_trigtuple.t_tableOid (s.seqLast + 1)
    (verboseMode td.tg_trigger) b hok rfl hb
  simp only [recordchange, hcon, if_false, hev, storePending, hok.2.1, hok.2.2, if_true,
    Bool.true_eq_false, hkp]
  simp [insertPending, sessionWith, headerRow, cstr_fullyqualtblname]

theorem recordchange_insert (h : Host) (s : Session) (td : TriggerData) (b : Varlena)
    (hok : HostOK h) (hev : td.tg_event = TriggerOp.INSERT)
    (hb : packageData h (some td.tg_trigtuple) td.tg_relation.rd_att td.tg_trigtuple.t_tableOid
      FieldUsage.ALL = some b) :
    recordchange h s (some td) =
      Except.ok (some td.tg_trigtuple, sessionWith s (headerRow h s td 'i')
        [{ SeqId := s.seqLast + 1, IsKey := false, Data := b.vardata }]) := by
  have hcon : ¬ h.SPI_connect < 0 := not_lt.mpr hok.1
  have hid : ('i' : Char) ≠ 'd' := by decide
  have hsd := storeData_ok h
    (insertPending s (cstr (fullyqualtblname td.tg_relation)) 'i' h.GetCurrentTransactionId)
    (some td.tg_trigtuple) td.tg_relation.rd_att td.tg_trigtuple.t_tableOid (s.seqLast + 1)
    false FieldUsage.ALL b hok rfl hb
  simp only [recordchange, hcon, if_false, hev, storePending, hok.2.1, hok.2.2, if_true,
    Bool.true_eq_false, hid, hsd]
  simp [insertPending, sessionWith, headerRow, cstr_fullyqualtblname]

theorem recordchange_update (h : Host) (s : Session) (td : TriggerData) (kb ab : Varlena)
    (hok : HostOK h) (hev : td.tg_event = TriggerOp.UPDATE)
    (hkb : packageData h (some td.tg_trigtuple) td.tg_relation.rd_att td.tg_newtuple.t_tableOid
      (if verboseMode td.tg_trigger = true then FieldUsage.ALLKEYS else FieldUsage.PRIMARY)
        = some kb)
    (hab : packageData h (some td.tg_newtuple) td.tg_relation.rd_att td.tg_newtuple.t_tableOid
      FieldUsage.ALL = some ab) :
    recordchange h s (some td) =
      Except.ok (some td.tg_newtuple, sessionWith s (headerRow h s td 'u')
        [{ SeqId := s.seqLast + 1, IsKey := true, Data := kb.vardata },
         { SeqId := s.seqLast + 1, IsKey := false, Data := ab.vardata }]) := by
  have hcon : ¬ h.SPI_connect < 0 := not_lt.mpr hok.1
  have hud : ('u' : Char) ≠ 'd' := by decide
  have hui : ('u' : Char) ≠ 'i' := by decide
  have hkp := storeKeyPayload_ok h
    (insertPending s (cstr (fullyqualtblname td.tg_relation)) 'u' h.GetCurrentTransactionId)
    (some td.tg_trigtuple) td.tg_relation.rd_att td.tg_newtuple.t_tableOid (s.seqLast + 1)
    (verboseMode td.tg_trigger) kb hok rfl hkb
  have hsd := storeData_ok h
    { (insertPending s (cstr (fullyqualtblname td.tg_relation)) 'u' h.GetCurrentTransactionId)
        with pendingdata :=
          (insertPending s (cstr (fullyqualtblname td.tg_relation)) 'u'
            h.GetCurrentTransactionId).pendingdata ++
          [{ SeqId := s.seqLast + 1, IsKey := true, Data := kb.vardata }] }
    (some td.tg_newtuple) td.tg_relation.rd_att td.tg_newtuple.t_tableOid (s.seqLast + 1)
    false FieldUsage.ALL ab hok rfl hab
  simp only [recordchange, hcon, if_false, hev, storePending, hok.2.1, hok.2.2, if_true,
    Bool.true_eq_false, hud, hui, hkp, ne_eq, not_true_eq_false, hsd]
  simp [insertPending, sessionWith, headerRow, cstr_fullyqualtblname]

theorem tokensOf_of_not_dropped (tuple : Option HeapTuple) (d : TupleDesc) (sel : Nat → Bool)
    (hnd : ∀ p ∈ columns d, sel p.1 = true → p.2.attisdropped = false) :
    tokensOf tuple d sel =
      ((columns d).filter (fun p => sel p.1)).flatMap
        (fun p => columnToken (fieldName p.2) (fieldValue tuple p.1)) := by
  unfold tokensOf
  congr 1
  apply List.filter_congr
  intro p hp
  cases hs : sel p.1 with
  | false => simp
  | true => simp [hnd p hp hs]

/-- C6: for a table with a primary key `pk`, none of whose columns is dropped, a
non-verbose delete on a host whose SPI calls succeed returns the deleted row and
leaves the two logs extended by exactly one header, with operation code `d`, and
exactly one payload row, with `IsKey = true`, attached to that header, whose text is
the concatenation of the tokens of the primary-key columns, each once, in schema order
(the order of `columns`, whatever the order of `pk`). -/
theorem delete_key_only (h : Host) (s : Session) (td : TriggerData) (pk : List Int)
    (hok : HostOK h) (hev : td.tg_event = TriggerOp.DELETE)
    (hv : verboseMode td.tg_trigger = false)
    (hpk : getPrimaryKey h td.tg_trigtuple.t_tableOid = some pk)
    (hnd : ∀ p ∈ columns td.tg_relation.rd_att, inKeys pk p.1 = true → p.2.attisdropped = false) :
    recordchange h s (some td) =
      Except.ok (some td.tg_trigtuple, sessionWith s (headerRow h s td 'd')
        [{ SeqId := s.seqLast + 1, IsKey := true,
           Data := ((columns td.tg_relation.rd_att).filter (fun p => inKeys pk p.1)).flatMap
             (fun p => columnToken (fieldName p.2) (fieldValue (some td.tg_trigtuple) p.1)) }]) := by
  have hb := packageData_PRIMARY h (some td.tg_trigtuple) td.tg_relation.rd_att
    td.tg_trigtuple.t_tableOid pk hpk
  rw [tokensOf_of_not_dropped _ _ _ hnd] at hb
  have := recordchange_delete h s td _ hok hev (by rw [hv]; exact hb)
  exact this

/-- C7: for every table, whatever the catalog says about its primary key, an insert
on a host whose SPI calls succeed returns the inserted row and leaves the two logs
extended by exactly one header, with operation code `i`, and exactly one payload row,
with `IsKey = false`, whose text is the concatenation of the tokens of the
non-dropped columns in schema order. The outcome of an insert event does not depend on
the catalog answers at all, on any host. -/
theorem insert_all_columns (h : Host) (s : Session) (td : TriggerData)
    (hok : HostOK h) (hev : td.tg_event = TriggerOp.INSERT) :
    recordchange h s (some td) =
      Except.ok (some td.tg_trigtuple, sessionWith s (headerRow h s td 'i')
        [{ SeqId := s.seqLast + 1, IsKey := false,
           Data := ((columns td.tg_relation.rd_att).filter (fun p => !p.2.attisdropped)).flatMap
             (fun p => columnToken (fieldName p.2) (fieldValue (some td.tg_trigtuple) p.1)) }]) ∧
    ∀ (h2 : Host) (f : List Char → SPIResult),
      recordchange { h2 with SPI_exec := f } s (some td) = recordchange h2 s (some td) := by
  constructor
  · have hb := packageData_policy h (some td.tg_trigtuple) td.tg_relation.rd_att
      td.tg_trigtuple.t_tableOid FieldUsage.ALL [] (by decide) (fun hne => absurd rfl hne)
    have ht : tokensOf (some td.tg_trigtuple) td.tg_relation.rd_att
        (policyIncludes FieldUsage.ALL []
          ((getForeignKey h td.tg_trigtuple.t_tableOid).getD [])) =
        ((columns td.tg_relation.rd_att).filter (fun p => !p.2.attisdropped)).flatMap
          (fun p => columnToken (fieldName p.2) (fieldValue (some td.tg_trigtuple) p.1)) := by
      simp [tokensOf, policyIncludes]
    rw [ht] at hb
    exact recordchange_insert h s td _ hok hev hb
  · intro h2 f
    simp [recordchange, hev, storePending, storeData, packageData, loadPKeys, loadFKeys]

theorem exampleHost_ok : HostOK exampleHost :=
  ⟨by decide, fun _ => rfl, fun _ => rfl⟩

/-- Witness of C6: the delete of `(1, A)` from `t(id primary key, name)` writes the
header `d` and the key payload `"id"='1' `. -/
theorem delete_key_only_witness :
    HostOK exampleHost ∧ exampleDelete.tg_event = TriggerOp.DELETE ∧
    verboseMode exampleDelete.tg_trigger = false ∧
    getPrimaryKey exampleHost exampleDelete.tg_trigtuple.t_tableOid = some [1] ∧
    (∀ p ∈ columns exampleDelete.tg_relation.rd_att,
      inKeys [1] p.1 = true → p.2.attisdropped = false) ∧
    recordchange exampleHost emptySession (some exampleDelete) =
      Except.ok (some rowBefore,
        { pending := [{ SeqId := 1, TableName := "\"public\".\"t\"".toList, Op := 'd',
                        XID := 700 }],
          pendingdata := [{ SeqId := 1, IsKey := true, Data := "\"id\"='1' ".toList }],
          seqLast := 1, currval := some 1 }) :=
  ⟨exampleHost_ok, rfl, by decide, by decide, by decide,
   delete_key_only exampleHost emptySession exampleDelete [1] exampleHost_ok rfl (by decide)
     (by decide) (by decide)⟩

/-- Witness of C7: the insert of `(1, A\B)` into `t` writes the header `i` and the
payload of both columns, the backslash doubled. -/
theorem insert_all_columns_witness :
    HostOK exampleHost ∧ exampleInsert.tg_event = TriggerOp.INSERT ∧
    (recordchange exampleHost emptySession (some exampleInsert) =
      Except.ok (some rowAfter,
        { pending := [{ SeqId := 1, TableName := "\"public\".\"t\"".toList, Op := 'i',
                        XID := 700 }],
          pendingdata := [{ SeqId := 1, IsKey := false,
                            Data := "\"id\"='1' \"name\"='A\\\\B' ".toList }],
          seqLast := 1, currval := some 1 }) ∧
     ∀ (h2 : Host) (f : List Char → SPIResult),
       recordchange { h2 with SPI_exec := f } emptySession (some exampleInsert) =
         recordchange h2 emptySession (some exampleInsert)) :=
  ⟨exampleHost_ok, rfl, insert_all_columns exampleHost emptySession exampleInsert exampleHost_ok rfl⟩

theorem packageData_key_some (h : Host) (tuple : Option HeapTuple) (d : TupleDesc) (oid : Nat)
    (verbose : Bool) (pk : List Int) (hpk : getPrimaryKey h oid = some pk) :
    ∃ kb, packageData h tuple d oid
      (if verbose = true then FieldUsage.ALLKEYS else FieldUsage.PRIMARY) = some kb :=
  ⟨_, packageData_eq_some h tuple d oid _ (Or.inr (by rw [hpk]; exact Option.some_ne_none _))⟩

/-- C8: for a table with a primary key, an update on a host whose SPI calls succeed
returns the new row and leaves the logs extended by exactly one header, with
operation code `u`, and exactly two payload rows attached to it, in this order: the
payload `packageData` gives for the before-image under `PRIMARY` (under `ALLKEYS` when
verbose) with `IsKey = true`, then the payload it gives for the after-image under `ALL`
with `IsKey = false`. -/
theorem update_two_payloads (h : Host) (s : Session) (td : TriggerData) (pk : List Int)
    (hok : HostOK h) (hev : td.tg_event = TriggerOp.UPDATE)
    (hpk : getPrimaryKey h td.tg_newtuple.t_tableOid = some pk) :
    ∃ kb ab : Varlena,
      packageData h (some td.tg_trigtuple) td.tg_relation.rd_att td.tg_newtuple.t_tableOid
        (if verboseMode td.tg_trigger = true then FieldUsage.ALLKEYS else FieldUsage.PRIMARY)
          = some kb ∧
      packageData h (some td.tg_newtuple) td.tg_relation.rd_att td.tg_newtuple.t_tableOid
        FieldUsage.ALL = some ab ∧
      recordchange h s (some td) =
        Except.ok (some td.tg_newtuple, sessionWith s (headerRow h s td 'u')
          [{ SeqId := s.seqLast + 1, IsKey := true, Data := kb.vardata },
           { SeqId := s.seqLast + 1, IsKey := false, Data := ab.vardata }]) := by
  obtain ⟨kb, hkb⟩ := packageData_key_some h (some td.tg_trigtuple) td.tg_relation.rd_att
    td.tg_newtuple.t_tableOid (verboseMode td.tg_trigger) pk hpk
  have hab := packageData_eq_some h (some td.tg_newtuple) td.tg_relation.rd_att
    td.tg_newtuple.t_tableOid FieldUsage.ALL (Or.inl rfl)
  exact ⟨kb, _, hkb, hab, recordchange_update h s td kb _ hok hev hkb hab⟩

/-- Witness of C8: on `t(id primary key, name)`, the non-verbose update of the row
`id = 1` setting `name` to `A\B` writes the header `u`, the key payload `"id"='1' `
and the full payload `"id"='1' "name"='A\\B' ` (backslash doubled). -/
theorem update_two_payloads_witness :
    HostOK exampleHost ∧ exampleUpdate.tg_event = TriggerOp.UPDATE ∧
    getPrimaryKey exampleHost exampleUpdate.tg_newtuple.t_tableOid = some [1] ∧
    (∃ kb ab : Varlena,
      packageData exampleHost (some exampleUpdate.tg_trigtuple) exampleUpdate.tg_relation.rd_att
        exampleUpdate.tg_newtuple.t_tableOid
        (if verboseMode exampleUpdate.tg_trigger = true then FieldUsage.ALLKEYS
         else FieldUsage.PRIMARY) = some kb ∧
      packageData exampleHost (some exampleUpdate.tg_newtuple) exampleUpdate.tg_relation.rd_att
        exampleUpdate.tg_newtuple.t_tableOid FieldUsage.ALL = some ab ∧
      recordchange exampleHost emptySession (some exampleUpdate) =
        Except.ok (some exampleUpdate.tg_newtuple,
          sessionWith emptySession (headerRow exampleHost emptySession exampleUpdate 'u')
            [{ SeqId := emptySession.seqLast + 1, IsKey := true, Data := kb.vardata },
             { SeqId := emptySession.seqLast + 1, IsKey := false, Data := ab.vardata }])) ∧
    recordchange exampleHost emptySession (some exampleUpdate) =
      Except.ok (some rowAfter,
        { pending := [{ SeqId := 1, TableName := "\"public\".\"t\"".toList, Op := 'u',
                        XID := 700 }],
          pendingdata := [{ SeqId := 1, IsKey := true, Data := "\"id\"='1' ".toList },
                          { SeqId := 1, IsKey := false,
                            Data := "\"id\"='1' \"name\"='A\\\\B' ".toList }],
          seqLast := 1, currval := some 1 }) :=
  ⟨exampleHost_ok, rfl, by decide,
   update_two_payloads exampleHost emptySession exampleUpdate [1] exampleHost_ok rfl (by decide),
   rfl⟩

theorem packageData_ALLKEYS_members (h h2 : Host) (tuple : Option HeapTuple) (d : TupleDesc)
    (oid : Nat) (pk pk2 : List Int) (hpk : getPrimaryKey h oid = some pk)
    (hpk2 : getPrimaryKey h2 oid = some pk2) (hm : ∀ k : Int, k ∈ pk2 ↔ k ∈ pk)
    (hf : ∀ k : Int, k ∈ (getForeignKey h2 oid).getD [] ↔ k ∈ (getForeignKey h oid).getD []) :
    packageData h2 tuple d oid FieldUsage.ALLKEYS = packageData h tuple d oid FieldUsage.ALLKEYS := by
  rw [packageData_policy h tuple d oid FieldUsage.ALLKEYS pk (by decide) (fun _ => hpk),
    packageData_policy h2 tuple d oid FieldUsage.ALLKEYS pk2 (by decide) (fun _ => hpk2)]
  have e : policyIncludes FieldUsage.ALLKEYS pk2 ((getForeignKey h2 oid).getD []) =
      policyIncludes FieldUsage.ALLKEYS pk ((getForeignKey h oid).getD []) := by
    funext c
    simp only [policyIncludes, inKeys]
    rw [decide_eq_decide.mpr (hm c), decide_eq_decide.mpr (hf c)]
  rw [e]

/-- C9: for a table with a primary key `pk`, a verbose delete or update on a host whose
SPI calls succeed writes, right after its header, a key payload row (`IsKey = true`)
whose text is, column by column in schema order, the token of the column when the
column is not dropped and its ordinal is in `pk` or in the foreign-key list, and
nothing otherwise (so each such column once, however often the key lists name it);
the other payload rows of the event have `IsKey = false`. The key payload depends only
on which ordinals the key lists contain: a catalog whose lists have the same members,
in any order and with any repetition, gives the same payload. -/
theorem verbose_key_payload (h : Host) (s : Session) (td : TriggerData) (pk : List Int)
    (hok : HostOK h)
    (hev : td.tg_event = TriggerOp.DELETE ∨ td.tg_event = TriggerOp.UPDATE)
    (hv : verboseMode td.tg_trigger = true)
    (hpk : getPrimaryKey h (retTupleOf td).t_tableOid = some pk) :
    (∃ rest : List PendingDataRow,
      recordchange h s (some td) =
        Except.ok (some (retTupleOf td),
          sessionWith s (headerRow h s td (if td.tg_event = TriggerOp.DELETE then 'd' else 'u'))
            ({ SeqId := s.seqLast + 1, IsKey := true,
               Data := (columns td.tg_relation.rd_att).flatMap (fun p =>
                 if ((inKeys pk p.1 ||
                      inKeys ((getForeignKey h (retTupleOf td).t_tableOid).getD []) p.1)
                     && !p.2.attisdropped) = true
                 then columnToken (fieldName p.2) (fieldValue (some td.tg_trigtuple) p.1)
                 else []) } :: rest)) ∧
      ∀ r ∈ rest, r.IsKey = false) ∧
    (∀ (h2 : Host) (pk2 : List Int), getPrimaryKey h2 (retTupleOf td).t_tableOid = some pk2 →
      (∀ k : Int, k ∈ pk2 ↔ k ∈ pk) →
      (∀ k : Int, k ∈ (getForeignKey h2 (retTupleOf td).t_tableOid).getD [] ↔
         k ∈ (getForeignKey h (retTupleOf td).t_tableOid).getD []) →
      packageData h2 (some td.tg_trigtuple) td.tg_relation.rd_att (retTupleOf td).t_tableOid
          FieldUsage.ALLKEYS =
        packageData h (some td.tg_trigtuple) td.tg_relation.rd_att (retTupleOf td).t_tableOid
          FieldUsage.ALLKEYS) := by
  constructor
  · have hkb := packageData_policy h (some td.tg_trigtuple) td.tg_relation.rd_att
      (retTupleOf td).t_tableOid FieldUsage.ALLKEYS pk (by decide) (fun _ => hpk)
    rw [tokensOf_eq_flatMap_ite] at hkb
    rcases hev with hev | hev
    · have hr : retTupleOf td = td.tg_trigtuple := by simp [retTupleOf, hev]
      rw [hr] at hkb ⊢
      refine ⟨[], ?_, by simp⟩
      have := recordchange_delete h s td _ hok hev (by rw [hv]; exact hkb)
      simpa [hev, policyIncludes] using this
    · have hr : retTupleOf td = td.tg_newtuple := by simp [retTupleOf, hev]
      rw [hr] at hkb ⊢
      obtain ⟨ab, hab⟩ : ∃ ab, packageData h (some td.tg_newtuple) td.tg_relation.rd_att
          td.tg_newtuple.t_tableOid FieldUsage.ALL = some ab :=
        ⟨_, packageData_eq_some h (some td.tg_newtuple) td.tg_relation.rd_att
          td.tg_newtuple.t_tableOid FieldUsage.ALL (Or.inl rfl)⟩
      refine ⟨[{ SeqId := s.seqLast + 1, IsKey := false, Data := ab.vardata }], ?_, ?_⟩
      · have := recordchange_update h s td _ ab hok hev (by rw [hv]; exact hkb) hab
        simpa [hev, policyIncludes] using this
      · simp
  · intro h2 pk2 hpk2 hm hf
    exact packageData_ALLKEYS_members h h2 _ _ _ pk pk2 hpk hpk2 hm hf

/-- Witness of C9: the verbose delete of `(1, A)` from the table 16385, whose column
`id` is in the primary key and in the foreign-key list, writes the token of `id` once. -/
theorem verbose_key_payload_witness :
    HostOK exampleHost ∧
    (verboseDelete.tg_event = TriggerOp.DELETE ∨ verboseDelete.tg_event = TriggerOp.UPDATE) ∧
    verboseMode verboseDelete.tg_trigger = true ∧
    getPrimaryKey exampleHost (retTupleOf verboseDelete).t_tableOid = some [1] ∧
    ((∃ rest : List PendingDataRow,
      recordchange exampleHost emptySession (some verboseDelete) =
        Except.ok (some (retTupleOf verboseDelete),
          sessionWith emptySession
            (headerRow exampleHost emptySession verboseDelete
              (if verboseDelete.tg_event = TriggerOp.DELETE then 'd' else 'u'))
            ({ SeqId := emptySession.seqLast + 1, IsKey := true,
               Data := (columns verboseDelete.tg_relation.rd_att).flatMap (fun p =>
                 if ((inKeys [1] p.1 ||
                      inKeys ((getForeignKey exampleHost
                        (retTupleOf verboseDelete).t_tableOid).getD []) p.1)
                     && !p.2.attisdropped) = true
                 then columnToken (fieldName p.2) (fieldValue (some verboseDelete.tg_trigtuple) p.1)
                 else []) } :: rest)) ∧
      ∀ r ∈ rest, r.IsKey = false) ∧
    (∀ (h2 : Host) (pk2 : List Int),
      getPrimaryKey h2 (retTupleOf verboseDelete).t_tableOid = some pk2 →
      (∀ k : Int, k ∈ pk2 ↔ k ∈ [1]) →
      (∀ k : Int, k ∈ (getForeignKey h2 (retTupleOf verboseDelete).t_tableOid).getD [] ↔
         k ∈ (getForeignKey exampleHost (retTupleOf verboseDelete).t_tableOid).getD []) →
      packageData h2 (some verboseDelete.tg_trigtuple) verboseDelete.tg_relation.rd_att
          (retTupleOf verboseDelete).t_tableOid FieldUsage.ALLKEYS =
        packageData exampleHost (some verboseDelete.tg_trigtuple)
          verboseDelete.tg_relation.rd_att (retTupleOf verboseDelete).t_tableOid
          FieldUsage.ALLKEYS)) ∧
    recordchange exampleHost emptySession (some verboseDelete) =
      Except.ok (some rowKeyed,
        { pending := [{ SeqId := 1, TableName := "\"public\".\"t\"".toList, Op := 'd',
                        XID := 700 }],
          pendingdata := [{ SeqId := 1, IsKey := true, Data := "\"id\"='1' ".toList }],
          seqLast := 1, currval := some 1 }) :=
  ⟨exampleHost_ok, Or.inl rfl, by decide, by decide,
   verbose_key_payload exampleHost emptySession verboseDelete [1] exampleHost_ok (Or.inl rfl)
     (by decide) (by decide),
   rfl⟩

theorem storeKeyPayload_no_key (h : Host) (s : Session) (tuple : Option HeapTuple)
    (d : TupleDesc) (oid : Nat) (verbose : Bool) (hpk : getPrimaryKey h oid = none) :
    (∃ e, storeKeyPayload h s tuple d oid verbose = Except.error e) ∨
    storeKeyPayload h s tuple d oid verbose = Except.ok (-1, s) := by
  have h1 := packageData_eq_none h tuple d oid FieldUsage.PRIMARY (by decide) hpk
  have h2 := packageData_eq_none h tuple d oid FieldUsage.ALLKEYS (by decide) hpk
  cases verbose with
  | true =>
    by_cases hp : h.SPI_prepare insQueryData = false
    · right; simp [storeKeyPayload, storeData, hp]
    · left; exact ⟨Err.tableLacksPrimaryKey, by simp [storeKeyPayload, storeData, hp, h2]⟩
  | false =>
    by_cases hp : h.SPI_prepare insQueryKeyInfo = false
    · right; simp [storeKeyPayload, storeKeyInfo, hp]
    · left; exact ⟨Err.noPrimaryKey, by simp [storeKeyPayload, storeKeyInfo, hp, h1]⟩

theorem storePending_no_key (h : Host) (s : Session) (name : List Char)
    (before after : Option HeapTuple) (d : TupleDesc) (oid : Nat) (op : Char) (verbose : Bool)
    (hop : op ≠ 'i') (hpk : getPrimaryKey h oid = none) :
    (∃ e, storePending h s name before after d oid op verbose = Except.error e) ∨
    (∃ s1, storePending h s name before after d oid op verbose = Except.ok (-1, s1)) := by
  unfold storePending
  by_cases hp : h.SPI_prepare cpQueryBase = false
  · left; exact ⟨Err.errorCreatingPlan, by simp [hp]⟩
  · simp only [hp, if_false, hop]
    generalize (if h.SPI_execp cpQueryBase = SPI_OK_INSERT then
      insertPending s (cstr name) op h.GetCurrentTransactionId else s) = s1
    rcases storeKeyPayload_no_key h s1 before d oid verbose hpk with ⟨e, he⟩ | he
    · left
      by_cases hd : op = 'd'
      · exact ⟨e, by simp [hd, he]⟩
      · exact ⟨e, by simp [hd, he]⟩
    · right
      by_cases hd : op = 'd'
      · exact ⟨s1, by simp [hd, he]⟩
      · exact ⟨s1, by simp [hd, he]⟩

/-- C10: if the table has no primary key (the catalog query of `getPrimaryKey` gives
`NULL`), every delete event and every update event, verbose or not, on any host, ends
in a hard error; the event is aborted, so the header log and the payload log are
after it exactly as they were before it. -/
theorem no_primary_key_aborts (h : Host) (s : Session) (td : TriggerData)
    (hev : td.tg_event = TriggerOp.DELETE ∨ td.tg_event = TriggerOp.UPDATE)
    (hpk : getPrimaryKey h (retTupleOf td).t_tableOid = none) :
    (∃ e, recordchange h s (some td) = Except.error e) ∧
    sessionAfter s (recordchange h s (some td)) = s ∧
    (sessionAfter s (recordchange h s (some td))).pending = s.pending ∧
    (sessionAfter s (recordchange h s (some td))).pendingdata = s.pendingdata := by
  have key : ∃ e, recordchange h s (some td) = Except.error e := by
    by_cases hcon : h.SPI_connect < 0
    · exact ⟨Err.couldNotConnect, by simp [recordchange, hcon]⟩
    · rcases hev with hev | hev
      · have hr : retTupleOf td = td.tg_trigtuple := by simp [retTupleOf, hev]
        rw [hr] at hpk
        rcases storePending_no_key h s (fullyqualtblname td.tg_relation)
          (some td.tg_trigtuple) none td.tg_relation.rd_att td.tg_trigtuple.t_tableOid 'd'
          (verboseMode td.tg_trigger) (by decide) hpk with ⟨e, he⟩ | ⟨s1, he⟩
        · exact ⟨e, by simp [recordchange, hcon, hev, he]⟩
        · exact ⟨Err.couldNotBeMirrored, by simp [recordchange, hcon, hev, he]⟩
      · have hr : retTupleOf td = td.tg_newtuple := by simp [retTupleOf, hev]
        rw [hr] at hpk
        rcases storePending_no_key h s (fullyqualtblname td.tg_relation)
          (some td.tg_trigtuple) (some td.tg_newtuple) td.tg_relation.rd_att
          td.tg_newtuple.t_tableOid 'u'
          (verboseMode td.tg_trigger) (by decide) hpk with ⟨e, he⟩ | ⟨s1, he⟩
        · exact ⟨e, by simp [recordchange, hcon, hev, he]⟩
        · exact ⟨Err.couldNotBeMirrored, by simp [recordchange, hcon, hev, he]⟩
  obtain ⟨e, he⟩ := key
  refine ⟨⟨e, he⟩, ?_, ?_, ?_⟩ <;> simp [he, sessionAfter]

/-- Witness of C10: the delete of a row of the table 16386, which has no primary key,
into an empty log ends with the error of `storeKeyInfo` and leaves the log empty. -/
theorem no_primary_key_aborts_witness :
    (unkeyedDelete.tg_event = TriggerOp.DELETE ∨ unkeyedDelete.tg_event = TriggerOp.UPDATE) ∧
    getPrimaryKey exampleHost (retTupleOf unkeyedDelete).t_tableOid = none ∧
    ((∃ e, recordchange exampleHost emptySession (some unkeyedDelete) = Except.error e) ∧
     sessionAfter emptySession (recordchange exampleHost emptySession (some unkeyedDelete)) =
       emptySession ∧
     (sessionAfter emptySession
       (recordchange exampleHost emptySession (some unkeyedDelete))).pending =
       emptySession.pending ∧
     (sessionAfter emptySession
       (recordchange exampleHost emptySession (some unkeyedDelete))).pendingdata =
       emptySession.pendingdata) ∧
    recordchange exampleHost emptySession (some unkeyedDelete) = Except.error Err.noPrimaryKey :=
  ⟨Or.inl rfl, by decide,
   no_primary_key_aborts exampleHost emptySession unkeyedDelete (Or.inl rfl) (by decide), rfl⟩

/-! ## Failures of the log writes and unsupported operations -/

/-- C11 (failing input): the header insert of an insert event returns the failure
code -1 in a session that already holds one header. `storePending` only reports the
code in a NOTICE and goes on: the event returns normally, no header is written, and
the payload row of the event is written all the same (under the `SeqId` of the older
header). -/
theorem header_failure_is_not_raised :
    headerFailHost.SPI_execp cpQueryBase = -1 ∧
    recordchange headerFailHost oneEventSession (some exampleInsert) =
      Except.ok (some rowAfter,
        { pending := oneEventSession.pending,
          pendingdata := oneEventSession.pendingdata ++
            [{ SeqId := 1, IsKey := false, Data := "\"id\"='1' \"name\"='A\\\\B' ".toList }],
          seqLast := 1, currval := some 1 }) :=
  ⟨by decide, rfl⟩

/-- C12 (failing input): two insert events of one session that both complete without
error. The first writes the header 1 and its payload row; the header insert of the
second returns a failure code, so the second event writes no header and its payload
row is attached to the header of the first event: the log ends with one header
followed by the payload rows of two events. -/
theorem payload_attached_to_older_header :
    recordchange exampleHost emptySession (some firstInsert) =
      Except.ok (some rowBefore, oneEventSession) ∧
    ∃ s2 : Session,
      recordchange headerFailHost oneEventSession (some exampleInsert) =
        Except.ok (some rowAfter, s2) ∧
      s2.pending.map (fun r => r.SeqId) = [1] ∧
      s2.pendingdata.map (fun r => (r.SeqId, r.Data)) =
        [(1, "\"id\"='1' \"name\"='A' ".toList),
         (1, "\"id\"='1' \"name\"='A\\\\B' ".toList)] :=
  ⟨rfl, _, rfl, by decide, by decide⟩

/-- C13: when the trigger fires for an operation that is not an insert, an update or a
delete, `recordchange` ends in a hard error on every host (the error "Unknown
operation" once SPI is connected), before any insert is prepared or executed: the
header log and the payload log are after the event as they were before it. -/
theorem unknown_operation_rejected (h : Host) (s : Session) (td : TriggerData)
    (hev : td.tg_event = TriggerOp.OTHER) :
    (∃ e, recordchange h s (some td) = Except.error e) ∧
    (0 ≤ h.SPI_connect → recordchange h s (some td) = Except.error Err.unknownOperation) ∧
    sessionAfter s (recordchange h s (some td)) = s ∧
    (sessionAfter s (recordchange h s (some td))).pending = s.pending ∧
    (sessionAfter s (recordchange h s (some td))).pendingdata = s.pendingdata := by
  by_cases hcon : h.SPI_connect < 0
  · have he : recordchange h s (some td) = Except.error Err.couldNotConnect := by
      simp [recordchange, hcon]
    refine ⟨⟨_, he⟩, fun h0 => absurd hcon (not_lt.mpr h0), ?_, ?_, ?_⟩ <;>
      simp [he, sessionAfter]
  · have he : recordchange h s (some td) = Except.error Err.unknownOperation := by
      simp [recordchange, hcon, hev]
    refine ⟨⟨_, he⟩, fun _ => he, ?_, ?_, ?_⟩ <;> simp [he, sessionAfter]

/-- Witness of C13: an event of another kind on the example host, in a session that
already holds a header and a payload row. -/
theorem unknown_operation_rejected_witness :
    otherEvent.tg_event = TriggerOp.OTHER ∧
    ((∃ e, recordchange exampleHost oneEventSession (some otherEvent) = Except.error e) ∧
     (0 ≤ exampleHost.SPI_connect →
        recordchange exampleHost oneEventSession (some otherEvent) =
          Except.error Err.unknownOperation) ∧
     sessionAfter oneEventSession (recordchange exampleHost oneEventSession (some otherEvent)) =
       oneEventSession ∧
     (sessionAfter oneEventSession
        (recordchange exampleHost oneEventSession (some otherEvent))).pending =
       oneEventSession.pending ∧
     (sessionAfter oneEventSession
        (recordchange exampleHost oneEventSession (some otherEvent))).pendingdata =
       oneEventSession.pendingdata) :=
  ⟨rfl, unknown_operation_rejected exampleHost oneEventSession otherEvent rfl⟩

/-- C17 (failing input): the insert of `(1, O'Brien)` into `t(id, name)`. The format
loop stores the single quote twice: the payload is `"id"='1' "name"='O''Brien' `, not
the text `"id"='1' "name"='O\'Brien' ` with a backslash before the quote that the doc
comment of `packageData` announces. -/
theorem quote_is_doubled_not_backslashed :
    recordchange exampleHost emptySession (some insertOBrien) =
      Except.ok (some rowOBrien,
        { pending := [{ SeqId := 1, TableName := "\"public\".\"t\"".toList, Op := 'i',
                        XID := 700 }],
          pendingdata := [{ SeqId := 1, IsKey := false,
                            Data := "\"id\"='1' \"name\"='O''Brien' ".toList }],
          seqLast := 1, currval := some 1 }) ∧
    "\"id\"='1' \"name\"='O''Brien' ".toList ≠ "\"id\"='1' \"name\"='O\\'Brien' ".toList :=
  ⟨rfl, by decide⟩

/-! ## The verbose flag -/

theorem verboseMode_iff (t : Trigger) :
    verboseMode t = true ↔
      ∃ (arg0 : List Char) (rest : List (List Char)),
        t.tgargs = arg0 :: rest ∧ cstr arg0 = "verbose".toList := by
  have hv : cstr "verbose".toList = "verbose".toList := by decide
  unfold verboseMode
  cases ht : t.tgargs with
  | nil => simp
  | cons a rest =>
    simp only [strcmpEq, beq_iff_eq, hv, List.cons.injEq]
    constructor
    · intro ha
      exact ⟨a, rest, ⟨rfl, rfl⟩, ha⟩
    · rintro ⟨b, r, ⟨hb, _⟩, hc⟩
      rw [hb]
      exact hc

theorem recordchange_congr_trigger (h : Host) (s : Session) (td : TriggerData) (t2 : Trigger)
    (hv : verboseMode t2 = verboseMode td.tg_trigger) :
    recordchange h s (some { td with tg_trigger := t2 }) = recordchange h s (some td) := by
  simp [recordchange, hv]

theorem recordchange_key_only (h : Host) (s : Session) (td : TriggerData) (pk : List Int)
    (hok : HostOK h)
    (hev : td.tg_event = TriggerOp.DELETE ∨ td.tg_event = TriggerOp.UPDATE)
    (hv : verboseMode td.tg_trigger = false)
    (hpk : getPrimaryKey h (retTupleOf td).t_tableOid = some pk) :
    ∃ (kb : Varlena) (rest : List PendingDataRow),
      packageData h (some td.tg_trigtuple) td.tg_relation.rd_att (retTupleOf td).t_tableOid
        FieldUsage.PRIMARY = some kb ∧
      recordchange h s (some td) =
        Except.ok (some (retTupleOf td),
          sessionWith s (headerRow h s td (if td.tg_event = TriggerOp.DELETE then 'd' else 'u'))
            ({ SeqId := s.seqLast + 1, IsKey := true, Data := kb.vardata } :: rest)) ∧
      ∀ r ∈ rest, r.IsKey = false := by
  obtain ⟨kb, hkb⟩ : ∃ kb, packageData h (some td.tg_trigtuple) td.tg_relation.rd_att
      (retTupleOf td).t_tableOid FieldUsage.PRIMARY = some kb :=
    ⟨_, packageData_eq_some h _ _ _ _ (Or.inr (by rw [hpk]; exact Option.some_ne_none _))⟩
  rcases hev with hev | hev
  · have hr : retTupleOf td = td.tg_trigtuple := by simp [retTupleOf, hev]
    rw [hr] at hkb ⊢
    refine ⟨kb, [], hkb, ?_, by simp⟩
    have := recordchange_delete h s td kb hok hev (by rw [hv]; exact hkb)
    simpa [hev] using this
  · have hr : retTupleOf td = td.tg_newtuple := by simp [retTupleOf, hev]
    rw [hr] at hkb ⊢
    obtain ⟨ab, hab⟩ : ∃ ab, packageData h (some td.tg_newtuple) td.tg_relation.rd_att
        td.tg_newtuple.t_tableOid FieldUsage.ALL = some ab :=
      ⟨_, packageData_eq_some h (some td.tg_newtuple) td.tg_relation.rd_att
        td.tg_newtuple.t_tableOid FieldUsage.ALL (Or.inl rfl)⟩
    refine ⟨kb, [{ SeqId := s.seqLast + 1, IsKey := false, Data := ab.vardata }], hkb, ?_, by simp⟩
    have := recordchange_update h s td kb ab hok hev (by rw [hv]; exact hkb) hab
    simpa [hev] using this

/-- C20: verbose mode is on iff the trigger registration has a first argument and that
argument, read as a C string, is exactly `verbose` (so `Verbose` does not turn it on);
the arguments after the first never matter, an event depends on the registration
through the verbose flag only; and with the flag off (no argument, or another first
argument) a delete or update event on a table with a primary key writes, right after
its header, the key-only payload (`PRIMARY`) of the before-image. -/
theorem verbose_flag (t : Trigger) :
    (verboseMode t = true ↔
      ∃ (arg0 : List Char) (rest : List (List Char)),
        t.tgargs = arg0 :: rest ∧ cstr arg0 = "verbose".toList) ∧
    (t.tgargs = [] → verboseMode t = false) ∧
    (∀ (arg0 : List Char) (rest : List (List Char)),
      verboseMode { tgargs := arg0 :: rest } = verboseMode { tgargs := [arg0] }) ∧
    (∀ (h : Host) (s : Session) (td : TriggerData),
      verboseMode t = verboseMode td.tg_trigger →
      recordchange h s (some { td with tg_trigger := t }) = recordchange h s (some td)) ∧
    (∀ (h : Host) (s : Session) (td : TriggerData) (pk : List Int),
      td.tg_trigger = t → verboseMode t = false → HostOK h →
      (td.tg_event = TriggerOp.DELETE ∨ td.tg_event = TriggerOp.UPDATE) →
      getPrimaryKey h (retTupleOf td).t_tableOid = some pk →
      ∃ (kb : Varlena) (rest : List PendingDataRow),
        packageData h (some td.tg_trigtuple) td.tg_relation.rd_att (retTupleOf td).t_tableOid
          FieldUsage.PRIMARY = some kb ∧
        recordchange h s (some td) =
          Except.ok (some (retTupleOf td),
            sessionWith s
              (headerRow h s td (if td.tg_event = TriggerOp.DELETE then 'd' else 'u'))
              ({ SeqId := s.seqLast + 1, IsKey := true, Data := kb.vardata } :: rest)) ∧
        ∀ r ∈ rest, r.IsKey = false) ∧
    (verboseMode verboseTrigger = true ∧ verboseMode verboseTwoArgs = true ∧
      verboseMode capitalTrigger = false ∧ verboseMode plainTrigger = false) := by
  refine ⟨verboseMode_iff t, ?_, ?_, ?_, ?_, by decide⟩
  · intro ht
    simp [verboseMode, ht]
  · intro arg0 rest
    simp [verboseMode]
  · intro h s td hv
    exact recordchange_congr_trigger h s td t hv
  · intro h s td pk ht hv hok hev hpk
    exact recordchange_key_only h s td pk hok hev (by rw [ht]; exact hv) hpk

/-! ## Null, empty string, and the trimmed block -/

/-- C18: for a column that `packageData` encodes, the token stored for the empty string
is the name part (`"name"=`) followed by two single quotes and one space, the token
stored for a null is the name part followed by one space: the same text without the
two quotes; the two blocks are never the same. -/
theorem null_versus_empty (u : FieldUsage) (pk fk : Option (List Int))
    (tNull tEmpty : Option HeapTuple) (c : Nat) (att : FormData_pg_attribute) (w : List Char)
    (st : DataBlock) (hs : Synced st) (hu : usedColumn u pk fk (c, att) = true)
    (hN : SPI_getvalue tNull c = none) (hE : SPI_getvalue tEmpty c = some w)
    (hw : cstr w = []) :
    (packageColumn u pk fk tEmpty c att st).cpDataBlock =
        st.cpDataBlock ++ (DQUOTE :: fieldName att ++ [DQUOTE, '=']) ++ [SQUOTE, SQUOTE, ' '] ∧
    (packageColumn u pk fk tNull c att st).cpDataBlock =
        st.cpDataBlock ++ (DQUOTE :: fieldName att ++ [DQUOTE, '=']) ++ [' '] ∧
    (packageColumn u pk fk tEmpty c att st).cpDataBlock ≠
      (packageColumn u pk fk tNull c att st).cpDataBlock := by
  have h1 := (packageColumn_spec u pk fk tEmpty c att st hs).1
  have h2 := (packageColumn_spec u pk fk tNull c att st hs).1
  have hsq : SQUOTE ≠ ' ' := by decide
  have e1 : (packageColumn u pk fk tEmpty c att st).cpDataBlock =
      st.cpDataBlock ++ (DQUOTE :: fieldName att ++ [DQUOTE, '=']) ++ [SQUOTE, SQUOTE, ' '] := by
    rw [h1, hu]
    simp [columnToken, fieldValue, hE, hw, escapeValue]
  have e2 : (packageColumn u pk fk tNull c att st).cpDataBlock =
      st.cpDataBlock ++ (DQUOTE :: fieldName att ++ [DQUOTE, '=']) ++ [' '] := by
    rw [h2, hu]
    simp [columnToken, fieldValue, hN]
  refine ⟨e1, e2, ?_⟩
  rw [e1, e2]
  intro he
  have := List.append_cancel_left he
  simp only [List.cons.injEq] at this
  exact hsq this.1

/-- Witness of C18: the column `name` of `t`, after the token of `id`, for the rows
`(1, '')` and `(1, null)`. -/
theorem null_versus_empty_witness :
    Synced (packageColumn FieldUsage.ALL none none (some rowEmptyName) 1
      { attname := "id".toList, attisdropped := false } emptyBlock) ∧
    usedColumn FieldUsage.ALL none none
      (2, { attname := "name".toList, attisdropped := false }) = true ∧
    SPI_getvalue (some rowNullName) 2 = none ∧
    SPI_getvalue (some rowEmptyName) 2 = some [] ∧
    cstr ([] : List Char) = [] ∧
    ((packageColumn FieldUsage.ALL none none (some rowEmptyName) 2
        { attname := "name".toList, attisdropped := false }
        (packageColumn FieldUsage.ALL none none (some rowEmptyName) 1
          { attname := "id".toList, attisdropped := false } emptyBlock)).cpDataBlock =
      "\"id\"='1' \"name\"='' ".toList ∧
     (packageColumn FieldUsage.ALL none none (some rowNullName) 2
        { attname := "name".toList, attisdropped := false }
        (packageColumn FieldUsage.ALL none none (some rowEmptyName) 1
          { attname := "id".toList, attisdropped := false } emptyBlock)).cpDataBlock =
      "\"id\"='1' \"name\"= ".toList ∧
     (packageColumn FieldUsage.ALL none none (some rowEmptyName) 2
        { attname := "name".toList, attisdropped := false }
        (packageColumn FieldUsage.ALL none none (some rowEmptyName) 1
          { attname := "id".toList, attisdropped := false } emptyBlock)).cpDataBlock ≠
     (packageColumn FieldUsage.ALL none none (some rowNullName) 2
        { attname := "name".toList, attisdropped := false }
        (packageColumn FieldUsage.ALL none none (some rowEmptyName) 1
          { attname := "id".toList, attisdropped := false } emptyBlock)).cpDataBlock) :=
  ⟨rfl, by decide, by decide, by decide, by decide,
   null_versus_empty FieldUsage.ALL none none (some rowNullName) (some rowEmptyName) 2
     { attname := "name".toList, attisdropped := false } []
     (packageColumn FieldUsage.ALL none none (some rowEmptyName) 1
       { attname := "id".toList, attisdropped := false } emptyBlock)
     rfl (by decide) (by decide) (by decide) (by decide)⟩

theorem packageData_block (h : Host) (tuple : Option HeapTuple) (d : TupleDesc) (oid : Nat)
    (u : FieldUsage) (block : Varlena) (hb : packageData h tuple d oid u = some block) :
    block.vardata =
        (columnLoop u (loadPKeys h oid u) (loadFKeys h oid u) tuple 1 d.attrs
          emptyBlock).cpDataBlock ∧
    block.vardata.length =
        (columnLoop u (loadPKeys h oid u) (loadFKeys h oid u) tuple 1 d.attrs
          emptyBlock).iUsedDataBlock ∧
    block.varsize = VARHDRSZ + block.vardata.length := by
  have hk : u = FieldUsage.ALL ∨ getPrimaryKey h oid ≠ none := by
    by_cases hu : u = FieldUsage.ALL
    · exact Or.inl hu
    · refine Or.inr (fun hn => ?_)
      rw [packageData_eq_none h tuple d oid u hu hn] at hb
      exact Option.noConfusion hb
  have hs : Synced emptyBlock := rfl
  have hl := columnLoop_spec u (loadPKeys h oid u) (loadFKeys h oid u) tuple d.attrs 1
    emptyBlock hs
  have hnul : NUL ∉ (columnLoop u (loadPKeys h oid u) (loadFKeys h oid u) tuple 1 d.attrs
      emptyBlock).cpDataBlock := by
    rw [hl.1, flatMap_ite_eq_filter]
    simp only [emptyBlock, List.nil_append]
    exact nul_not_mem_flatMap_tokens tuple _
  rw [packageData_eq_some h tuple d oid u hk, finishBlock_of_synced hl.2 hnul] at hb
  injection hb with hb
  rw [← hb]
  exact ⟨rfl, hl.2.symm, rfl⟩

/-- C19: the block `packageData` returns is trimmed to its used length. Its content is
exactly the bytes stored in the buffer during encoding, which are the tokens of the
encoded columns; the length of the content equals the byte counter `iUsedDataBlock`
reached by the column loop, which is the sum of the lengths of the tokens; and the
declared size is the header size (4) plus that length. -/
theorem block_trimmed_to_used (h : Host) (tuple : Option HeapTuple) (d : TupleDesc)
    (oid : Nat) (u : FieldUsage) (block : Varlena)
    (hb : packageData h tuple d oid u = some block) :
    block.vardata.length =
        (columnLoop u (loadPKeys h oid u) (loadFKeys h oid u) tuple 1 d.attrs
          emptyBlock).iUsedDataBlock ∧
    (columnLoop u (loadPKeys h oid u) (loadFKeys h oid u) tuple 1 d.attrs
          emptyBlock).iUsedDataBlock =
        (((columns d).filter (usedColumn u (loadPKeys h oid u) (loadFKeys h oid u))).map
          (fun p => (columnToken (fieldName p.2) (fieldValue tuple p.1)).length)).sum ∧
    block.varsize = 4 + block.vardata.length ∧
    block.vardata =
        (columnLoop u (loadPKeys h oid u) (loadFKeys h oid u) tuple 1 d.attrs
          emptyBlock).cpDataBlock ∧
    block.vardata =
        ((columns d).filter (usedColumn u (loadPKeys h oid u) (loadFKeys h oid u))).flatMap
          (fun p => columnToken (fieldName p.2) (fieldValue tuple p.1)) := by
  obtain ⟨h1, h2, h3⟩ := packageData_block h tuple d oid u block hb
  have h4 := packageData_vardata h tuple d oid u block hb
  refine ⟨h2, ?_, h3, h1, h4⟩
  rw [← h2, h4, List.length_flatMap]
  rfl

/-- Witness of C19: the row `(1, A\B)` of `t` under `ALL`: 23 bytes, declared size 27. -/
theorem block_trimmed_to_used_witness :
    packageData exampleHost (some rowAfter) exampleDesc 16384 FieldUsage.ALL =
        some { varsize := 27, vardata := "\"id\"='1' \"name\"='A\\\\B' ".toList } ∧
    ("\"id\"='1' \"name\"='A\\\\B' ".toList.length =
        (columnLoop FieldUsage.ALL (loadPKeys exampleHost 16384 FieldUsage.ALL)
          (loadFKeys exampleHost 16384 FieldUsage.ALL) (some rowAfter) 1 exampleDesc.attrs
          emptyBlock).iUsedDataBlock ∧
    (columnLoop FieldUsage.ALL (loadPKeys exampleHost 16384 FieldUsage.ALL)
          (loadFKeys exampleHost 16384 FieldUsage.ALL) (some rowAfter) 1 exampleDesc.attrs
          emptyBlock).iUsedDataBlock =
        (((columns exampleDesc).filter
            (usedColumn FieldUsage.ALL (loadPKeys exampleHost 16384 FieldUsage.ALL)
              (loadFKeys exampleHost 16384 FieldUsage.ALL))).map
          (fun p => (columnToken (fieldName p.2) (fieldValue (some rowAfter) p.1)).length)).sum ∧
    27 = 4 + "\"id\"='1' \"name\"='A\\\\B' ".toList.length ∧
    "\"id\"='1' \"name\"='A\\\\B' ".toList =
        (columnLoop FieldUsage.ALL (loadPKeys exampleHost 16384 FieldUsage.ALL)
          (loadFKeys exampleHost 16384 FieldUsage.ALL) (some rowAfter) 1 exampleDesc.attrs
          emptyBlock).cpDataBlock ∧
    "\"id\"='1' \"name\"='A\\\\B' ".toList =
        ((columns exampleDesc).filter
            (usedColumn FieldUsage.ALL (loadPKeys exampleHost 16384 FieldUsage.ALL)
              (loadFKeys exampleHost 16384 FieldUsage.ALL))).flatMap
          (fun p => columnToken (fieldName p.2) (fieldValue (some rowAfter) p.1))) :=
  ⟨by decide,
   block_trimmed_to_used exampleHost (some rowAfter) exampleDesc 16384 FieldUsage.ALL
     { varsize := 27, vardata := "\"id\"='1' \"name\"='A\\\\B' ".toList } (by decide)⟩

/-! ## The cost of escaping -/

theorem escapeValue_length (v : List Char) :
    (escapeValue v).length = v.length + specialCount v := by
  induction v with
  | nil => simp [escapeValue, specialCount]
  | cons c cs ih =>
    rw [escapeValue_cons, List.length_append, ih]
    unfold specialCount
    rw [List.countP_cons]
    by_cases hq : c = BACKSLASH ∨ c = SQUOTE
    · simp only [hq, if_true, decide_True, List.length_cons, List.length_nil]
      omega
    · simp only [hq, if_false, decide_False, List.length_cons, List.length_nil,
        Bool.false_eq_true]
      omega

theorem columnToken_length (n v : List Char) :
    (columnToken n (some v)).length = n.length + v.length + specialCount v + 6 := by
  simp only [columnToken, List.length_cons, List.length_append, List.length_nil,
    escapeValue_length]
  omega

theorem fieldValue_withValue_ne (t : HeapTuple) (c c2 : Nat) (v : List Char) (hc : 1 ≤ c)
    (hne : c2 ≠ c) :
    fieldValue (some (withValue t c v)) c2 = fieldValue (some t) c2 := by
  unfold fieldValue SPI_getvalue withValue
  by_cases h0 : c2 = 0
  · simp [h0]
  · have hidx : c - 1 ≠ c2 - 1 := by omega
    simp only [h0, if_false, List.get?_eq_getElem?, List.getElem?_set_ne hidx]

theorem fieldValue_withValue_eq (t : HeapTuple) (c : Nat) (v : List Char) (hc : 1 ≤ c)
    (hlen : c ≤ t.values.length) :
    fieldValue (some (withValue t c v)) c = some (cstr v) := by
  unfold fieldValue SPI_getvalue withValue
  have h0 : c ≠ 0 := by omega
  have hidx : c - 1 < t.values.length := by omega
  simp [h0, List.getElem?_set, hidx]

theorem tokens_same_outside (t : HeapTuple) (c : Nat) (v w : List Char) (hc : 1 ≤ c)
    (used : Nat × FormData_pg_attribute → Bool) (l : List (Nat × FormData_pg_attribute))
    (hl : ∀ p ∈ l, p.1 ≠ c) :
    (l.filter used).flatMap
        (fun p => columnToken (fieldName p.2) (fieldValue (some (withValue t c v)) p.1)) =
      (l.filter used).flatMap
        (fun p => columnToken (fieldName p.2) (fieldValue (some (withValue t c w)) p.1)) := by
  apply List.flatMap_congr
  intro p hp
  have hne := hl p (List.mem_of_mem_filter hp)
  rw [fieldValue_withValue_ne t c p.1 v hc hne, fieldValue_withValue_ne t c p.1 w hc hne]

theorem tokens_length_at (t : HeapTuple) (c : Nat) (v w : List Char) (hc : 1 ≤ c)
    (hlen : c ≤ t.values.length) (hv : NUL ∉ v) (hw : NUL ∉ w) (hvw : w.length = v.length)
    (hw0 : specialCount w = 0)
    (used : Nat × FormData_pg_attribute → Bool) (atts : List FormData_pg_attribute) (c0 : Nat)
    (hc0 : c0 ≤ c) (hc1 : c < c0 + atts.length)
    (hused : ∀ att, (c, att) ∈ atts.enumFrom c0 → used (c, att) = true) :
    (((atts.enumFrom c0).filter used).flatMap
        (fun p => columnToken (fieldName p.2) (fieldValue (some (withValue t c v)) p.1))).length =
      (((atts.enumFrom c0).filter used).flatMap
        (fun p => columnToken (fieldName p.2) (fieldValue (some (withValue t c w)) p.1))).length
        + specialCount v := by
  induction atts generalizing c0 with
  | nil => simp at hc1; omega
  | cons a as ih =>
    rw [List.enumFrom_cons]
    by_cases hcc : c = c0
    · subst hcc
      have hu : used (c, a) = true := hused a (by simp [List.enumFrom_cons])
      have hrest := tokens_same_outside t c v w hc used (as.enumFrom (c + 1))
        (fun p hp => by
          have := (List.mem_enumFrom (x := p.2) (i := p.1) (by simpa using hp)).1
          omega)
      rw [List.filter_cons_of_pos hu, List.flatMap_cons, List.flatMap_cons, hrest,
        List.length_append, List.length_append,
        fieldValue_withValue_eq t c v hc hlen, fieldValue_withValue_eq t c w hc hlen,
        columnToken_length, columnToken_length, cstr_eq_self hv, cstr_eq_self hw, hvw, hw0]
      omega
    · have hih := ih (c0 + 1) (by omega) (by simp at hc1; omega)
        (fun att hm => hused att (by simp [List.enumFrom_cons, hm]))
      by_cases hu : used (c0, a) = true
      · rw [List.filter_cons_of_pos hu, List.flatMap_cons, List.flatMap_cons,
          List.length_append, List.length_append, hih,
          fieldValue_withValue_ne t c c0 v hc (Ne.symm hcc),
          fieldValue_withValue_ne t c c0 w hc (Ne.symm hcc)]
        omega
      · rw [List.filter_cons_of_neg hu]
        exact hih

/-- C16: the escaping cost law. For a NUL-free value `v` with `k = specialCount v`
bytes that are a single quote or a backslash, the format loop stores `|v| + k` bytes
(and advances the used count by as much); and the payload of a row that holds `v` in
an encoded column `c` is exactly `k` bytes longer than the payload of the same row
holding there a NUL-free value `w` of the same length with no such byte. -/
theorem escaping_cost (v : List Char) (hv : NUL ∉ v) :
    (∀ st : DataBlock, Synced st →
      (formatLoop v st).cpDataBlock.length = st.cpDataBlock.length + (v.length + specialCount v) ∧
      (formatLoop v st).iUsedDataBlock = st.iUsedDataBlock + (v.length + specialCount v)) ∧
    (∀ (h : Host) (t : HeapTuple) (d : TupleDesc) (oid : Nat) (u : FieldUsage) (c : Nat)
        (w : List Char) (b1 b2 : Varlena),
      NUL ∉ w → w.length = v.length → specialCount w = 0 →
      1 ≤ c → c ≤ t.values.length → c ≤ d.attrs.length →
      (∀ att, (c, att) ∈ columns d →
        usedColumn u (loadPKeys h oid u) (loadFKeys h oid u) (c, att) = true) →
      packageData h (some (withValue t c v)) d oid u = some b1 →
      packageData h (some (withValue t c w)) d oid u = some b2 →
      b1.vardata.length = b2.vardata.length + specialCount v) := by
  constructor
  · intro st hs
    have h := formatLoop_spec v st hs
    have hl : (formatLoop v st).cpDataBlock.length =
        st.cpDataBlock.length + (v.length + specialCount v) := by
      rw [h.1, List.length_append, cstr_eq_self hv, escapeValue_length]
    refine ⟨hl, ?_⟩
    have h2 := h.2
    unfold Synced at h2 hs
    rw [h2, hl, hs]
  · intro h t d oid u c w b1 b2 hw hvw hw0 hc hlen hd hused hb1 hb2
    rw [packageData_vardata h _ d oid u b1 hb1, packageData_vardata h _ d oid u b2 hb2]
    exact tokens_length_at t c v w hc hlen hv hw hvw hw0 _ d.attrs 1 hc (by omega) hused

/-- Witness of C16: the value `O'B\` has two bytes to escape; in the column `name` of
`t` it makes the payload two bytes longer than the value `OxBy`. -/
theorem escaping_cost_witness :
    NUL ∉ "O'B\\".toList ∧
    ((∀ st : DataBlock, Synced st →
      (formatLoop "O'B\\".toList st).cpDataBlock.length =
        st.cpDataBlock.length + ("O'B\\".toList.length + specialCount "O'B\\".toList) ∧
      (formatLoop "O'B\\".toList st).iUsedDataBlock =
        st.iUsedDataBlock + ("O'B\\".toList.length + specialCount "O'B\\".toList)) ∧
    (∀ (h : Host) (t : HeapTuple) (d : TupleDesc) (oid : Nat) (u : FieldUsage) (c : Nat)
        (w : List Char) (b1 b2 : Varlena),
      NUL ∉ w → w.length = "O'B\\".toList.length → specialCount w = 0 →
      1 ≤ c → c ≤ t.values.length → c ≤ d.attrs.length →
      (∀ att, (c, att) ∈ columns d →
        usedColumn u (loadPKeys h oid u) (loadFKeys h oid u) (c, att) = true) →
      packageData h (some (withValue t c "O'B\\".toList)) d oid u = some b1 →
      packageData h (some (withValue t c w)) d oid u = some b2 →
      b1.vardata.length = b2.vardata.length + specialCount "O'B\\".toList)) ∧
    specialCount "O'B\\".toList = 2 ∧
    (packageData exampleHost (some (withValue rowBefore 2 "O'B\\".toList)) exampleDesc 16384
        FieldUsage.ALL).map (fun b => b.vardata) =
      some "\"id\"='1' \"name\"='O''B\\\\' ".toList ∧
    (packageData exampleHost (some (withValue rowBefore 2 "OxBy".toList)) exampleDesc 16384
        FieldUsage.ALL).map (fun b => b.vardata) =
      some "\"id\"='1' \"name\"='OxBy' ".toList :=
  ⟨by decide, escaping_cost "O'B\\".toList (by decide), by decide, by decide, by decide⟩

/-! ## Sequence events -/

theorem natDigits_length_le (fuel n : Nat) : (natDigits fuel n).length ≤ fuel := by
  induction fuel generalizing n with
  | zero => simp [natDigits]
  | succ f ih =>
    unfold natDigits
    split
    · simp
    · have := ih (n / 10)
      simp only [List.length_append, List.length_cons, List.length_nil]
      omega

theorem natDigits_eq_digits (fuel n : Nat) (hn : 0 < n) (hf : n < 10 ^ fuel) :
    natDigits fuel n = (Nat.digits 10 n).reverse.map Nat.digitChar := by
  induction fuel generalizing n with
  | zero => simp at hf; omega
  | succ f ih =>
    unfold natDigits
    by_cases h10 : n < 10
    · simp [h10, Nat.digits_of_lt 10 n (by omega) h10]
    · have hq : 0 < n / 10 := by omega
      have hq2 : n / 10 < 10 ^ f := by
        rw [pow_succ] at hf
        omega
      rw [if_neg h10, ih (n / 10) hq hq2, Nat.digits_def' (by decide) hn]
      simp

theorem natDigits_eq_decimalNat (fuel n : Nat) (hf0 : 0 < fuel) (hf : n < 10 ^ fuel) :
    natDigits fuel n = decimalNat n := by
  unfold decimalNat
  by_cases hn : n = 0
  · subst hn
    obtain ⟨f, rfl⟩ : ∃ f, fuel = f + 1 := ⟨fuel - 1, by omega⟩
    simp [natDigits]
    rfl
  · rw [if_neg hn]
    exact natDigits_eq_digits fuel n (by omega) hf

theorem digitChar_ne_nul (d : Nat) (hd : d < 10) : Nat.digitChar d ≠ NUL := by
  interval_cases d <;> decide

theorem nul_not_mem_natDigits (fuel n : Nat) : NUL ∉ natDigits fuel n := by
  induction fuel generalizing n with
  | zero => simp [natDigits]
  | succ f ih =>
    unfold natDigits
    split
    · rename_i h10
      simp only [List.mem_singleton]
      exact fun e => digitChar_ne_nul n h10 e.symm
    · simp only [List.mem_append, List.mem_singleton, not_or]
      exact ⟨ih _, fun e => digitChar_ne_nul (n % 10) (by omega) e.symm⟩

theorem toInt64_of_range (v : Int) (h1 : -2 ^ 63 ≤ v) (h2 : v < 2 ^ 63) : toInt64 v = v := by
  unfold toInt64
  rw [Int.emod_eq_of_lt (by omega) (by omega)]
  omega

theorem toInt64_range (x : Int) : -2 ^ 63 ≤ toInt64 x ∧ toInt64 x < 2 ^ 63 := by
  unfold toInt64
  have h1 := Int.emod_nonneg (x + 2 ^ 63) (by norm_num : (2 ^ 64 : Int) ≠ 0)
  have h2 := Int.emod_lt_of_pos (x + 2 ^ 63) (by norm_num : (0 : Int) < 2 ^ 64)
  constructor <;> omega

theorem sprintf_lld_eq_decimalInt (v : Int) (h1 : -2 ^ 63 ≤ v) (h2 : v < 2 ^ 63) :
    sprintf_lld v = decimalInt v := by
  unfold sprintf_lld decimalInt
  by_cases hneg : v < 0
  · have e : (-v).toNat = v.natAbs := by omega
    have hb : v.natAbs < 10 ^ 20 := by
      have : (10 : Nat) ^ 20 = 100000000000000000000 := by norm_num
      omega
    rw [if_pos hneg, if_pos hneg, e, natDigits_eq_decimalNat 20 _ (by decide) hb]
  · have e : v.toNat = v.natAbs := by omega
    have hb : v.natAbs < 10 ^ 20 := by
      have : (10 : Nat) ^ 20 = 100000000000000000000 := by norm_num
      omega
    rw [if_neg hneg, if_neg hneg, e, natDigits_eq_decimalNat 20 _ (by decide) hb]

theorem sprintf_lld_length (v : Int) : (sprintf_lld v).length ≤ 21 := by
  unfold sprintf_lld
  split
  · have := natDigits_length_le 20 (-v).toNat
    simp only [List.length_cons]
    omega
  · have := natDigits_length_le 20 v.toNat
    omega

theorem nul_not_mem_sprintf_lld (v : Int) : NUL ∉ sprintf_lld v := by
  have hm : NUL ≠ '-' := by decide
  unfold sprintf_lld
  split
  · simp only [List.mem_cons, not_or]
    exact ⟨hm, nul_not_mem_natDigits _ _⟩
  · exact nul_not_mem_natDigits _ _

/-- The text fits the 64-byte buffer and holds no terminator inside: what the payload
insert reads is the whole formatted text. -/
theorem cstr_nextSequenceText (v : Int) (iscalled : Bool) :
    cstr (nextSequenceText v iscalled) =
      sprintf_lld v ++ [',', SQUOTE, if iscalled = true then 't' else 'f', SQUOTE] := by
  have hlen := sprintf_lld_length v
  have htake : nextSequenceText v iscalled =
      sprintf_lld v ++ [',', SQUOTE, if iscalled = true then 't' else 'f', SQUOTE] := by
    unfold nextSequenceText snprintf
    apply List.take_of_length_le
    simp only [List.length_append, List.length_cons, List.length_nil]
    omega
  rw [htake]
  apply cstr_eq_self
  have h1 : NUL ≠ ',' := by decide
  have h2 : NUL ≠ SQUOTE := by decide
  have h3 : NUL ≠ 't' := by decide
  have h4 : NUL ≠ 'f' := by decide
  have := nul_not_mem_sprintf_lld v
  cases iscalled <;> simp [this, h1, h2, h3, h4]

theorem saveSequenceUpdate_ok (h : Host) (q : SeqHost) (s : Session) (relid : Nat) (v : Int)
    (iscalled : Bool) (hok : HostOK h) (h1 : -2 ^ 63 ≤ v) (h2 : v < 2 ^ 63) :
    saveSequenceUpdate h q s relid v iscalled =
      Except.ok (sessionWith s
        { SeqId := s.seqLast + 1, TableName := cstr (q.get_rel_name relid), Op := 's',
          XID := h.GetCurrentTransactionId }
        [{ SeqId := s.seqLast + 1, IsKey := true, Data := sequenceText v iscalled }]) := by
  have hcon : ¬ h.SPI_connect < 0 := not_lt.mpr hok.1
  simp only [saveSequenceUpdate, hcon, if_false, hok.2.1, hok.2.2, Bool.true_eq_false,
    or_self, ne_eq, not_true_eq_false, insertPendingData, insertPending,
    cstr_nextSequenceText, sprintf_lld_eq_decimalInt v h1 h2]
  rfl

theorem saveSequenceUpdate_of_ok (h : Host) (q : SeqHost) (s s1 : Session) (relid : Nat)
    (v : Int) (iscalled : Bool) (h1 : -2 ^ 63 ≤ v) (h2 : v < 2 ^ 63)
    (hrun : saveSequenceUpdate h q s relid v iscalled = Except.ok s1) :
    s1 = sessionWith s
        { SeqId := s.seqLast + 1, TableName := cstr (q.get_rel_name relid), Op := 's',
          XID := h.GetCurrentTransactionId }
        [{ SeqId := s.seqLast + 1, IsKey := true, Data := sequenceText v iscalled }] := by
  unfold saveSequenceUpdate at hrun
  by_cases hcon : h.SPI_connect < 0
  · simp [hcon] at hrun
  · by_cases hp : h.SPI_prepare insertQuery = false ∨ h.SPI_prepare insertDataQuery = false
    · simp [hcon, hp] at hrun
    · by_cases he1 : h.SPI_execp insertQuery ≠ SPI_OK_INSERT
      · simp [hcon, hp, he1] at hrun
      · by_cases he2 : h.SPI_execp insertDataQuery ≠ SPI_OK_INSERT
        · simp [hcon, hp, he1, he2] at hrun
        · simp only [hcon, hp, he1, he2, if_false, insertPendingData, insertPending,
            cstr_nextSequenceText, sprintf_lld_eq_decimalInt v h1 h2] at hrun
          injection hrun with hrun
          rw [← hrun]
          rfl

/-- C14: on a host whose SPI calls succeed, for every sequence `relid` and every signed
64-bit value `v` returned by the native primitive, each of the three sequence-mirror
operations leaves the logs extended by exactly one header, with operation code `s` and
the name of the sequence as table name, and one payload row attached to it, with
`IsKey = true`, whose text is the decimal representation of `v`, a comma, and the
is-called flag as `t` or `f` between single quotes; the text is whole, the 64-byte
buffer never cuts it. The flag is the argument of the caller for `setval3_mirror`, and
`t` for `setval_mirror` and `nextval_mirror`. -/
theorem sequence_mirror_rows (h : Host) (q : SeqHost) (s : Session) (relid : Nat)
    (next : Int) (iscalled : Bool) (v : Int) (hok : HostOK h)
    (h1 : -2 ^ 63 ≤ v) (h2 : v < 2 ^ 63) :
    (q.setval_oid relid next = v →
      setval_mirror h q s relid next =
        Except.ok (v, sessionWith s
          { SeqId := s.seqLast + 1, TableName := cstr (q.get_rel_name relid), Op := 's',
            XID := h.GetCurrentTransactionId }
          [{ SeqId := s.seqLast + 1, IsKey := true, Data := sequenceText v true }])) ∧
    (q.setval3_oid relid next iscalled = v →
      setval3_mirror h q s relid next iscalled =
        Except.ok (v, sessionWith s
          { SeqId := s.seqLast + 1, TableName := cstr (q.get_rel_name relid), Op := 's',
            XID := h.GetCurrentTransactionId }
          [{ SeqId := s.seqLast + 1, IsKey := true, Data := sequenceText v iscalled }])) ∧
    (q.nextval_oid relid = v →
      nextval_mirror h q s relid =
        Except.ok (v, sessionWith s
          { SeqId := s.seqLast + 1, TableName := cstr (q.get_rel_name relid), Op := 's',
            XID := h.GetCurrentTransactionId }
          [{ SeqId := s.seqLast + 1, IsKey := true, Data := sequenceText v true }])) ∧
    cstr (nextSequenceText v iscalled) = sequenceText v iscalled := by
  refine ⟨?_, ?_, ?_, ?_⟩
  · intro hv
    simp only [setval_mirror, hv, toInt64_of_range v h1 h2,
      saveSequenceUpdate_ok h q s relid v true hok h1 h2]
  · intro hv
    simp only [setval3_mirror, hv, toInt64_of_range v h1 h2,
      saveSequenceUpdate_ok h q s relid v iscalled hok h1 h2]
  · intro hv
    simp only [nextval_mirror, hv, toInt64_of_range v h1 h2,
      saveSequenceUpdate_ok h q s relid v true hok h1 h2]
  · rw [cstr_nextSequenceText, sprintf_lld_eq_decimalInt v h1 h2]
    rfl

theorem decimalInt_42 : decimalInt 42 = "42".toList := by
  have : Nat.digits 10 42 = [2, 4] := by norm_num
  simp [decimalInt, decimalNat, this]
  decide

/-- Witness of C14: the sequence `s` with value 42 and is-called true gives the header
`s` for the table name `s` and the payload `42,'t'`. -/
theorem sequence_mirror_rows_witness :
    HostOK exampleHost ∧ (-2 ^ 63 : Int) ≤ 42 ∧ (42 : Int) < 2 ^ 63 ∧
    ((exampleSeqHost.setval_oid 16400 42 = 42 →
      setval_mirror exampleHost exampleSeqHost emptySession 16400 42 =
        Except.ok (42, sessionWith emptySession
          { SeqId := emptySession.seqLast + 1,
            TableName := cstr (exampleSeqHost.get_rel_name 16400), Op := 's',
            XID := exampleHost.GetCurrentTransactionId }
          [{ SeqId := emptySession.seqLast + 1, IsKey := true,
             Data := sequenceText 42 true }])) ∧
    (exampleSeqHost.setval3_oid 16400 42 true = 42 →
      setval3_mirror exampleHost exampleSeqHost emptySession 16400 42 true =
        Except.ok (42, sessionWith emptySession
          { SeqId := emptySession.seqLast + 1,
            TableName := cstr (exampleSeqHost.get_rel_name 16400), Op := 's',
            XID := exampleHost.GetCurrentTransactionId }
          [{ SeqId := emptySession.seqLast + 1, IsKey := true,
             Data := sequenceText 42 true }])) ∧
    (exampleSeqHost.nextval_oid 16400 = 42 →
      nextval_mirror exampleHost exampleSeqHost emptySession 16400 =
        Except.ok (42, sessionWith emptySession
          { SeqId := emptySession.seqLast + 1,
            TableName := cstr (exampleSeqHost.get_rel_name 16400), Op := 's',
            XID := exampleHost.GetCurrentTransactionId }
          [{ SeqId := emptySession.seqLast + 1, IsKey := true,
             Data := sequenceText 42 true }])) ∧
    cstr (nextSequenceText 42 true) = sequenceText 42 true) ∧
    nextval_mirror exampleHost exampleSeqHost emptySession 16400 =
      Except.ok (42,
        { pending := [{ SeqId := 1, TableName := "s".toList, Op := 's', XID := 700 }],
          pendingdata := [{ SeqId := 1, IsKey := true, Data := "42,'t'".toList }],
          seqLast := 1, currval := some 1 }) ∧
    sequenceText 42 true = "42,'t'".toList :=
  ⟨exampleHost_ok, by decide, by decide,
   sequence_mirror_rows exampleHost exampleSeqHost emptySession 16400 42 true 42 exampleHost_ok
     (by decide) (by decide),
   rfl, by rw [sequenceText, decimalInt_42]; decide⟩

/-- C15: whenever one of `setval_mirror`, `setval3_mirror`, `nextval_mirror` returns
(its log writes have succeeded), the value it returns is exactly the (signed 64-bit)
value returned by the corresponding native primitive, and the payload row it has
written holds the decimal text of that same value, with the is-called flag. -/
theorem mirror_returns_native (h : Host) (q : SeqHost) (s : Session) (relid : Nat)
    (next : Int) (iscalled : Bool) :
    (∀ (r : Int) (s1 : Session),
      -2 ^ 63 ≤ q.setval_oid relid next → q.setval_oid relid next < 2 ^ 63 →
      setval_mirror h q s relid next = Except.ok (r, s1) →
      r = q.setval_oid relid next ∧
      s1.pendingdata = s.pendingdata ++
        [{ SeqId := s.seqLast + 1, IsKey := true, Data := sequenceText r true }]) ∧
    (∀ (r : Int) (s1 : Session),
      -2 ^ 63 ≤ q.setval3_oid relid next iscalled → q.setval3_oid relid next iscalled < 2 ^ 63 →
      setval3_mirror h q s relid next iscalled = Except.ok (r, s1) →
      r = q.setval3_oid relid next iscalled ∧
      s1.pendingdata = s.pendingdata ++
        [{ SeqId := s.seqLast + 1, IsKey := true, Data := sequenceText r iscalled }]) ∧
    (∀ (r : Int) (s1 : Session),
      -2 ^ 63 ≤ q.nextval_oid relid → q.nextval_oid relid < 2 ^ 63 →
      nextval_mirror h q s relid = Except.ok (r, s1) →
      r = q.nextval_oid relid ∧
      s1.pendingdata = s.pendingdata ++
        [{ SeqId := s.seqLast + 1, IsKey := true, Data := sequenceText r true }]) ∧
    (setval_mirror exampleHost exampleSeqHost emptySession 16400 (-7) =
        Except.ok (-7, sessionWith emptySession
          { SeqId := 1, TableName := "s".toList, Op := 's', XID := 700 }
          [{ SeqId := 1, IsKey := true, Data := "-7,'t'".toList }]) ∧
     setval3_mirror exampleHost exampleSeqHost emptySession 16400 5 false =
        Except.ok (5, sessionWith emptySession
          { SeqId := 1, TableName := "s".toList, Op := 's', XID := 700 }
          [{ SeqId := 1, IsKey := true, Data := "5,'f'".toList }]) ∧
     nextval_mirror exampleHost exampleSeqHost emptySession 16400 =
        Except.ok (42, sessionWith emptySession
          { SeqId := 1, TableName := "s".toList, Op := 's', XID := 700 }
          [{ SeqId := 1, IsKey := true, Data := "42,'t'".toList }])) := by
  refine ⟨?_, ?_, ?_, rfl, rfl, rfl⟩
  · intro r s1 h1 h2 hrun
    unfold setval_mirror at hrun
    rw [toInt64_of_range _ h1 h2] at hrun
    cases hs : saveSequenceUpdate h q s relid (q.setval_oid relid next) true with
    | error e => simp [hs] at hrun
    | ok s2 =>
      simp only [hs, Except.ok.injEq, Prod.mk.injEq] at hrun
      have := saveSequenceUpdate_of_ok h q s s2 relid _ true h1 h2 hs
      rw [← hrun.1, ← hrun.2, this]
      exact ⟨rfl, rfl⟩
  · intro r s1 h1 h2 hrun
    unfold setval3_mirror at hrun
    rw [toInt64_of_range _ h1 h2] at hrun
    cases hs : saveSequenceUpdate h q s relid (q.setval3_oid relid next iscalled) iscalled with
    | error e => simp [hs] at hrun
    | ok s2 =>
      simp only [hs, Except.ok.injEq, Prod.mk.injEq] at hrun
      have := saveSequenceUpdate_of_ok h q s s2 relid _ iscalled h1 h2 hs
      rw [← hrun.1, ← hrun.2, this]
      exact ⟨rfl, rfl⟩
  · intro r s1 h1 h2 hrun
    unfold nextval_mirror at hrun
    rw [toInt64_of_range _ h1 h2] at hrun
    cases hs : saveSequenceUpdate h q s relid (q.nextval_oid relid) true with
    | error e => simp [hs] at hrun
    | ok s2 =>
      simp only [hs, Except.ok.injEq, Prod.mk.injEq] at hrun
      have := saveSequenceUpdate_of_ok h q s s2 relid _ true h1 h2 hs
      rw [← hrun.1, ← hrun.2, this]
      exact ⟨rfl, rfl⟩

/-! ## Linkage of payload rows to their header, when the header insert succeeds -/

theorem recordchange_no_key (h : Host) (s : Session) (td : TriggerData)
    (hev : td.tg_event = TriggerOp.DELETE ∨ td.tg_event = TriggerOp.UPDATE)
    (hpk : getPrimaryKey h (retTupleOf td).t_tableOid = none) :
    ∃ e, recordchange h s (some td) = Except.error e := by
  by_cases hcon : h.SPI_connect < 0
  · exact ⟨Err.couldNotConnect, by simp [recordchange, hcon]⟩
  · rcases hev with hev | hev
    · have hr : retTupleOf td = td.tg_trigtuple := by simp [retTupleOf, hev]
      rw [hr] at hpk
      rcases storePending_no_key h s (fullyqualtblname td.tg_relation)
        (some td.tg_trigtuple) none td.tg_relation.rd_att td.tg_trigtuple.t_tableOid 'd'
        (verboseMode td.tg_trigger) (by decide) hpk with ⟨e, he⟩ | ⟨s1, he⟩
      · exact ⟨e, by simp [recordchange, hcon, hev, he]⟩
      · exact ⟨Err.couldNotBeMirrored, by simp [recordchange, hcon, hev, he]⟩
    · have hr : retTupleOf td = td.tg_newtuple := by simp [retTupleOf, hev]
      rw [hr] at hpk
      rcases storePending_no_key h s (fullyqualtblname td.tg_relation)
        (some td.tg_trigtuple) (some td.tg_newtuple) td.tg_relation.rd_att
        td.tg_newtuple.t_tableOid 'u'
        (verboseMode td.tg_trigger) (by decide) hpk with ⟨e, he⟩ | ⟨s1, he⟩
      · exact ⟨e, by simp [recordchange, hcon, hev, he]⟩
      · exact ⟨Err.couldNotBeMirrored, by simp [recordchange, hcon, hev, he]⟩

/-- On a host whose SPI calls succeed, a row event that returns has appended exactly one
group to the logs: one header with the next sequence id, and one or two payload rows
that carry the sequence id of that header. -/
theorem recordchange_appends_group (h : Host) (s s1 : Session) (td : TriggerData)
    (r : Option HeapTuple) (hok : HostOK h)
    (hrun : recordchange h s (some td) = Except.ok (r, s1)) :
    ∃ (hdr : PendingRow) (rows : List PendingDataRow),
      s1 = sessionWith s hdr rows ∧ hdr.SeqId = s.seqLast + 1 ∧
      (rows.length = 1 ∨ rows.length = 2) ∧ ∀ x ∈ rows, x.SeqId = hdr.SeqId := by
  have hcon : ¬ h.SPI_connect < 0 := not_lt.mpr hok.1
  cases hev : td.tg_event with
  | OTHER => simp [recordchange, hcon, hev] at hrun
  | INSERT =>
    have hab := packageData_eq_some h (some td.tg_trigtuple) td.tg_relation.rd_att
      td.tg_trigtuple.t_tableOid FieldUsage.ALL (Or.inl rfl)
    rw [recordchange_insert h s td _ hok hev hab] at hrun
    simp only [Except.ok.injEq, Prod.mk.injEq] at hrun
    exact ⟨_, _, hrun.2.symm, rfl, Or.inl rfl, by simp [headerRow]⟩
  | DELETE =>
    cases hpk : getPrimaryKey h (retTupleOf td).t_tableOid with
    | none =>
      obtain ⟨e, he⟩ := recordchange_no_key h s td (Or.inl hev) hpk
      rw [he] at hrun
      exact Except.noConfusion hrun
    | some pk =>
      have hr : retTupleOf td = td.tg_trigtuple := by simp [retTupleOf, hev]
      rw [hr] at hpk
      obtain ⟨kb, hkb⟩ := packageData_key_some h (some td.tg_trigtuple) td.tg_relation.rd_att
        td.tg_trigtuple.t_tableOid (verboseMode td.tg_trigger) pk hpk
      rw [recordchange_delete h s td kb hok hev hkb] at hrun
      simp only [Except.ok.injEq, Prod.mk.injEq] at hrun
      exact ⟨_, _, hrun.2.symm, rfl, Or.inl rfl, by simp [headerRow]⟩
  | UPDATE =>
    cases hpk : getPrimaryKey h (retTupleOf td).t_tableOid with
    | none =>
      obtain ⟨e, he⟩ := recordchange_no_key h s td (Or.inr hev) hpk
      rw [he] at hrun
      exact Except.noConfusion hrun
    | some pk =>
      have hr : retTupleOf td = td.tg_newtuple := by simp [retTupleOf, hev]
      rw [hr] at hpk
      obtain ⟨kb, hkb⟩ := packageData_key_some h (some td.tg_trigtuple) td.tg_relation.rd_att
        td.tg_newtuple.t_tableOid (verboseMode td.tg_trigger) pk hpk
      have hab := packageData_eq_some h (some td.tg_newtuple) td.tg_relation.rd_att
        td.tg_newtuple.t_tableOid FieldUsage.ALL (Or.inl rfl)
      rw [recordchange_update h s td kb _ hok hev hkb hab] at hrun
      simp only [Except.ok.injEq, Prod.mk.injEq] at hrun
      exact ⟨_, _, hrun.2.symm, rfl, Or.inr rfl, by simp [headerRow]⟩

/-- A sequence event that returns has appended exactly one group to the logs, on any
host: its header insert raises an error when it fails. -/
theorem saveSequenceUpdate_appends_group (h : Host) (q : SeqHost) (s s1 : Session)
    (relid : Nat) (v : Int) (iscalled : Bool)
    (hrun : saveSequenceUpdate h q s relid v iscalled = Except.ok s1) :
    ∃ (hdr : PendingRow) (rows : List PendingDataRow),
      s1 = sessionWith s hdr rows ∧ hdr.SeqId = s.seqLast + 1 ∧
      rows.length = 1 ∧ ∀ x ∈ rows, x.SeqId = hdr.SeqId := by
  unfold saveSequenceUpdate at hrun
  by_cases hcon : h.SPI_connect < 0
  · simp [hcon] at hrun
  · by_cases hp : h.SPI_prepare insertQuery = false ∨ h.SPI_prepare insertDataQuery = false
    · simp [hcon, hp] at hrun
    · by_cases he1 : h.SPI_execp insertQuery ≠ SPI_OK_INSERT
      · simp [hcon, hp, he1] at hrun
      · by_cases he2 : h.SPI_execp insertDataQuery ≠ SPI_OK_INSERT
        · simp [hcon, hp, he1, he2] at hrun
        · simp only [hcon, hp, he1, he2, if_false, insertPendingData, insertPending] at hrun
          injection hrun with hrun
          refine ⟨{ SeqId := s.seqLast + 1, TableName := cstr (q.get_rel_name relid), Op := 's',
                    XID := h.GetCurrentTransactionId },
                  [{ SeqId := s.seqLast + 1, IsKey := true,
                     Data := cstr (nextSequenceText v iscalled) }], ?_, rfl, rfl, by simp⟩
          rw [← hrun]
          rfl

/-! ## The capacity of the payload buffer -/

theorem growLoop_capacity (fuel need : Nat) (st : DataBlock) :
    ∃ k : Nat, (growLoop fuel need st).iDataBlockSize = st.iDataBlockSize + k * BUFFER_SIZE := by
  induction fuel generalizing st with
  | zero => exact ⟨0, by simp [growLoop]⟩
  | succ n ih =>
    simp only [growLoop]
    split
    · obtain ⟨k, hk⟩ := ih { st with iDataBlockSize := st.iDataBlockSize + BUFFER_SIZE }
      exact ⟨k + 1, by rw [hk]; ring⟩
    · exact ⟨0, by simp⟩

theorem growBlock_capacity (need : Nat) (st : DataBlock) :
    ∃ k : Nat, (growBlock need st).iDataBlockSize = st.iDataBlockSize + k * BUFFER_SIZE :=
  growLoop_capacity need need st

/-- After the growth loop the remaining capacity is at least what was asked for. -/
theorem growBlock_room (need : Nat) (st : DataBlock)
    (hu : st.iUsedDataBlock ≤ st.iDataBlockSize) :
    st.iUsedDataBlock + need ≤ (growBlock need st).iDataBlockSize := by
  have h1 := growBlock_exit need st hu
  have h2 := growBlock_used need st
  obtain ⟨k, hk⟩ := growBlock_capacity need st
  rw [h2] at h1
  omega

theorem capacityOK_of_grows {st st2 : DataBlock} (hc : CapacityOK st)
    (hg : ∃ k : Nat, st2.iDataBlockSize = st.iDataBlockSize + k * BUFFER_SIZE) :
    CapacityOK st2 := by
  obtain ⟨m, hm, he⟩ := hc
  obtain ⟨k, hk⟩ := hg
  exact ⟨m + k, by omega, by rw [hk, he]; ring⟩

theorem storeChecked_eq (st : DataBlock) (bs : List Char) (t : Nat)
    (h : st.iUsedDataBlock + bs.length + t ≤ st.iDataBlockSize) :
    st.storeChecked bs t = some (st.store bs) := by
  unfold DataBlock.storeChecked
  rw [if_pos]
  constructor <;> omega

theorem store_size (st : DataBlock) (bs : List Char) :
    (st.store bs).iDataBlockSize = st.iDataBlockSize ∧
    (st.store bs).iUsedDataBlock = st.iUsedDataBlock := ⟨rfl, rfl⟩

theorem advance_size (st : DataBlock) (n : Nat) :
    (st.advance n).iDataBlockSize = st.iDataBlockSize ∧
    (st.advance n).iUsedDataBlock = st.iUsedDataBlock + n := ⟨rfl, rfl⟩

theorem formatLoopChecked_spec (v : List Char) (st : DataBlock)
    (hu : st.iUsedDataBlock ≤ st.iDataBlockSize) :
    formatLoopChecked v st = some (formatLoop v st) ∧
    (formatLoop v st).iUsedDataBlock ≤ (formatLoop v st).iDataBlockSize ∧
    ∃ k : Nat, (formatLoop v st).iDataBlockSize = st.iDataBlockSize + k * BUFFER_SIZE := by
  induction v generalizing st with
  | nil => exact ⟨rfl, hu, 0, by simp [formatLoop]⟩
  | cons c cs ih =>
    by_cases hc : c = NUL
    · have e : formatLoop (c :: cs) st = st := by simp [formatLoop, hc]
      rw [e]
      exact ⟨by simp [formatLoopChecked, hc], hu, 0, by simp⟩
    · have hroom := growBlock_room 2 st hu
      have hused := growBlock_used 2 st
      obtain ⟨k1, hk1⟩ := growBlock_capacity 2 st
      have hg : growChecked 2 st = some (growBlock 2 st) := by simp [growChecked, hu]
      by_cases hq : c = BACKSLASH ∨ c = SQUOTE
      · have s1 : (growBlock 2 st).storeChecked [c] 0 = some ((growBlock 2 st).store [c]) :=
          storeChecked_eq _ _ _ (by simp only [List.length_singleton]; omega)
        have s2 : (((growBlock 2 st).store [c]).advance 1).storeChecked [c] 0 =
            some ((((growBlock 2 st).store [c]).advance 1).store [c]) :=
          storeChecked_eq _ _ _ (by
            simp only [List.length_singleton, advance_size, store_size]; omega)
        obtain ⟨e, hle, k2, hk2⟩ := ih (((((growBlock 2 st).store [c]).advance 1).store [c]).advance 1)
          (by simp only [advance_size, store_size]; omega)
        simp only [formatLoopChecked, formatLoop, hc, hq, if_true, if_false, hg, s1,
          Option.map_some', s2]
        refine ⟨e, hle, k1 + k2, ?_⟩
        rw [hk2]
        simp only [advance_size, store_size]
        rw [hk1]
        ring
      · have s2 : (growBlock 2 st).storeChecked [c] 0 = some ((growBlock 2 st).store [c]) :=
          storeChecked_eq _ _ _ (by simp only [List.length_singleton]; omega)
        obtain ⟨e, hle, k2, hk2⟩ := ih (((growBlock 2 st).store [c]).advance 1)
          (by simp only [advance_size, store_size]; omega)
        simp only [formatLoopChecked, formatLoop, hc, hq, if_false, hg, s2]
        refine ⟨e, hle, k1 + k2, ?_⟩
        rw [hk2]
        simp only [advance_size, store_size]
        rw [hk1]
        ring

theorem packageValueChecked_spec (v : Option (List Char)) (st : DataBlock)
    (hroom : st.iUsedDataBlock + 3 ≤ st.iDataBlockSize) :
    packageValueChecked v st = some (packageValue v st) ∧
    (packageValue v st).iUsedDataBlock < (packageValue v st).iDataBlockSize ∧
    ∃ k : Nat, (packageValue v st).iDataBlockSize = st.iDataBlockSize + k * BUFFER_SIZE := by
  cases v with
  | none =>
    have s1 : st.storeChecked [' '] 1 = some (st.store [' ']) :=
      storeChecked_eq _ _ _ (by simp only [List.length_singleton]; omega)
    refine ⟨by simp [packageValueChecked, packageValue, s1], ?_, 0, by simp [packageValue, advance_size, store_size]⟩
    simp only [packageValue, advance_size, store_size]
    omega
  | some w =>
    have s1 : st.storeChecked [SQUOTE] 0 = some (st.store [SQUOTE]) :=
      storeChecked_eq _ _ _ (by simp only [List.length_singleton]; omega)
    obtain ⟨e4, hle4, k4, hk4⟩ := formatLoopChecked_spec w ((st.store [SQUOTE]).advance 1)
      (by simp only [advance_size, store_size]; omega)
    have hg : growChecked 3 (formatLoop w ((st.store [SQUOTE]).advance 1)) =
        some (growBlock 3 (formatLoop w ((st.store [SQUOTE]).advance 1))) := by
      simp [growChecked, hle4]
    have hroom5 := growBlock_room 3 _ hle4
    have hused5 := growBlock_used 3 (formatLoop w ((st.store [SQUOTE]).advance 1))
    obtain ⟨k5, hk5⟩ := growBlock_capacity 3 (formatLoop w ((st.store [SQUOTE]).advance 1))
    have s5 : (growBlock 3 (formatLoop w ((st.store [SQUOTE]).advance 1))).storeChecked
        [SQUOTE, ' '] 1 =
        some ((growBlock 3 (formatLoop w ((st.store [SQUOTE]).advance 1))).store [SQUOTE, ' ']) :=
      storeChecked_eq _ _ _ (by
        simp only [List.length_cons, List.length_nil]; omega)
    refine ⟨by simp [packageValueChecked, packageValue, s1, e4, hg, s5], ?_, k4 + k5, ?_⟩
    · simp only [packageValue, advance_size, store_size]
      omega
    · simp only [packageValue, advance_size, store_size]
      rw [hk5, hk4]
      simp only [advance_size, store_size]
      ring

theorem packageColumnChecked_spec (u : FieldUsage) (pk fk : Option (List Int))
    (tuple : Option HeapTuple) (c : Nat) (att : FormData_pg_attribute) (st : DataBlock)
    (hu : st.iUsedDataBlock < st.iDataBlockSize) :
    packageColumnChecked u pk fk tuple c att st = some (packageColumn u pk fk tuple c att st) ∧
    (packageColumn u pk fk tuple c att st).iUsedDataBlock <
      (packageColumn u pk fk tuple c att st).iDataBlockSize ∧
    ∃ k : Nat, (packageColumn u pk fk tuple c att st).iDataBlockSize =
      st.iDataBlockSize + k * BUFFER_SIZE := by
  by_cases hsk : skipColumn u pk fk c = true
  · have e : packageColumn u pk fk tuple c att st = st := by simp [packageColumn, hsk]
    rw [e]
    exact ⟨by simp [packageColumnChecked, hsk], hu, 0, by simp⟩
  · by_cases hd : att.attisdropped = true
    · have e : packageColumn u pk fk tuple c att st = st := by simp [packageColumn, hsk, hd]
      rw [e]
      exact ⟨by simp [packageColumnChecked, hsk, hd], hu, 0, by simp⟩
    · have hle : st.iUsedDataBlock ≤ st.iDataBlockSize := Nat.le_of_lt hu
      have hg : growChecked (strlen att.attname + 6) st =
          some (growBlock (strlen att.attname + 6) st) := by simp [growChecked, hle]
      have hroom := growBlock_room (strlen att.attname + 6) st hle
      have hused := growBlock_used (strlen att.attname + 6) st
      obtain ⟨k1, hk1⟩ := growBlock_capacity (strlen att.attname + 6) st
      have s1 : (growBlock (strlen att.attname + 6) st).storeChecked
          (DQUOTE :: cstr att.attname ++ [DQUOTE, '=']) 1 =
          some ((growBlock (strlen att.attname + 6) st).store
            (DQUOTE :: cstr att.attname ++ [DQUOTE, '='])) :=
        storeChecked_eq _ _ _ (by
          simp only [List.length_cons, List.length_append, List.length_nil, cstr_length]
          omega)
      obtain ⟨e2, hlt2, k2, hk2⟩ := packageValueChecked_spec (SPI_getvalue tuple c)
        (((growBlock (strlen att.attname + 6) st).store
          (DQUOTE :: cstr att.attname ++ [DQUOTE, '='])).advance (strlen att.attname + 3))
        (by simp only [advance_size, store_size]; omega)
      have e : packageColumn u pk fk tuple c att st =
          packageValue (SPI_getvalue tuple c)
            (((growBlock (strlen att.attname + 6) st).store
              (DQUOTE :: cstr att.attname ++ [DQUOTE, '='])).advance (strlen att.attname + 3)) := by
        simp [packageColumn, hsk, hd]
      have ec : packageColumnChecked u pk fk tuple c att st =
          some (packageValue (SPI_getvalue tuple c)
            (((growBlock (strlen att.attname + 6) st).store
              (DQUOTE :: cstr att.attname ++ [DQUOTE, '='])).advance (strlen att.attname + 3))) := by
        unfold packageColumnChecked
        rw [if_neg hsk, if_neg hd]
        simp only [hg, s1, e2]
      rw [e]
      refine ⟨ec, hlt2, k1 + k2, ?_⟩
      rw [hk2]
      simp only [advance_size, store_size]
      rw [hk1]
      ring

theorem columnLoopChecked_spec (u : FieldUsage) (pk fk : Option (List Int))
    (tuple : Option HeapTuple) (atts : List FormData_pg_attribute) (c : Nat) (st : DataBlock)
    (hu : st.iUsedDataBlock < st.iDataBlockSize) :
    columnLoopChecked u pk fk tuple c atts st = some (columnLoop u pk fk tuple c atts st) ∧
    (columnLoop u pk fk tuple c atts st).iUsedDataBlock <
      (columnLoop u pk fk tuple c atts st).iDataBlockSize ∧
    ∃ k : Nat, (columnLoop u pk fk tuple c atts st).iDataBlockSize =
      st.iDataBlockSize + k * BUFFER_SIZE := by
  induction atts generalizing c st with
  | nil => exact ⟨rfl, hu, 0, by simp [columnLoop]⟩
  | cons a as ih =>
    obtain ⟨e1, hlt1, k1, hk1⟩ := packageColumnChecked_spec u pk fk tuple c a st hu
    obtain ⟨e2, hlt2, k2, hk2⟩ := ih (c + 1) (packageColumn u pk fk tuple c a st) hlt1
    refine ⟨by simp [columnLoopChecked, columnLoop, e1, e2], hlt2, k1 + k2, ?_⟩
    simp only [columnLoop]
    rw [hk2, hk1]
    ring

theorem capacityOK_emptyBlock : CapacityOK emptyBlock := ⟨1, by decide, rfl⟩

/-- C21: the buffer-capacity invariant of `packageData`, for every row, schema, policy
and key lists. The buffer starts with capacity `BUFFER_SIZE` (256) and used count 0;
the capacity changes only in the growth loops, by whole steps of 256, so it is a
positive multiple of 256 in every state. Run with every store checked against the
remaining capacity (the number of bytes stored counts the terminator that `sprintf`
writes) and every growth loop checked for a used count within the capacity, the body
of the column loop, from any state with the used count below the capacity, and the
whole column loop, from the fresh block, refuse nothing: they return the state of the
unchecked loop. Each ends with a capacity that is a positive multiple of 256, not
smaller than before, and with the used count strictly smaller than the capacity. -/
theorem buffer_capacity_invariant (u : FieldUsage) (pk fk : Option (List Int))
    (tuple : Option HeapTuple) (atts : List FormData_pg_attribute) :
    (CapacityOK emptyBlock ∧ emptyBlock.iDataBlockSize = 256 ∧
      emptyBlock.iUsedDataBlock < emptyBlock.iDataBlockSize) ∧
    (∀ (need : Nat) (st : DataBlock),
      (∃ k : Nat, (growBlock need st).iDataBlockSize = st.iDataBlockSize + k * 256) ∧
      (CapacityOK st → CapacityOK (growBlock need st)) ∧
      (st.iUsedDataBlock ≤ st.iDataBlockSize →
        need ≤ (growBlock need st).iDataBlockSize - (growBlock need st).iUsedDataBlock)) ∧
    (∀ (st : DataBlock) (bs : List Char) (n : Nat),
      ((st.store bs).advance n).iDataBlockSize = st.iDataBlockSize) ∧
    (∀ (c : Nat) (att : FormData_pg_attribute) (st : DataBlock),
      CapacityOK st → st.iUsedDataBlock < st.iDataBlockSize →
      packageColumnChecked u pk fk tuple c att st =
        some (packageColumn u pk fk tuple c att st) ∧
      CapacityOK (packageColumn u pk fk tuple c att st) ∧
      st.iDataBlockSize ≤ (packageColumn u pk fk tuple c att st).iDataBlockSize ∧
      (packageColumn u pk fk tuple c att st).iUsedDataBlock <
        (packageColumn u pk fk tuple c att st).iDataBlockSize) ∧
    (columnLoopChecked u pk fk tuple 1 atts emptyBlock =
        some (columnLoop u pk fk tuple 1 atts emptyBlock) ∧
      CapacityOK (columnLoop u pk fk tuple 1 atts emptyBlock) ∧
      (∃ k : Nat, (columnLoop u pk fk tuple 1 atts emptyBlock).iDataBlockSize = 256 + k * 256) ∧
      (columnLoop u pk fk tuple 1 atts emptyBlock).iUsedDataBlock <
        (columnLoop u pk fk tuple 1 atts emptyBlock).iDataBlockSize) := by
  have h0 : emptyBlock.iUsedDataBlock < emptyBlock.iDataBlockSize := by decide
  refine ⟨⟨capacityOK_emptyBlock, rfl, h0⟩, ?_, fun _ _ _ => rfl, ?_, ?_⟩
  · intro need st
    refine ⟨growBlock_capacity need st, fun hc => capacityOK_of_grows hc (growBlock_capacity need st), ?_⟩
    intro hu
    have h1 := growBlock_room need st hu
    have h2 := growBlock_used need st
    omega
  · intro c att st hc hu
    obtain ⟨e, hlt, k, hk⟩ := packageColumnChecked_spec u pk fk tuple c att st hu
    exact ⟨e, capacityOK_of_grows hc ⟨k, hk⟩, by rw [hk]; exact Nat.le_add_right _ _, hlt⟩
  · obtain ⟨e, hlt, k, hk⟩ := columnLoopChecked_spec u pk fk tuple atts 1 emptyBlock h0
    exact ⟨e, capacityOK_of_grows capacityOK_emptyBlock ⟨k, hk⟩, ⟨k, hk⟩, hlt⟩

/-! ## The catalog query and its buffer -/

theorem primaryKeyQuery_eq (tblOid : Nat) :
    primaryKeyQuery tblOid = primaryKeyQueryBase ++ sprintf_d tblOid := rfl

theorem foreignKeyQuery_eq (tblOid : Nat) :
    foreignKeyQuery tblOid = foreignKeyQueryBase ++ sprintf_d tblOid := rfl

theorem sprintf_d_length_of_lt (tblOid : Nat) (h : tblOid < 2 ^ 31) :
    (sprintf_d tblOid).length ≤ MAX_OID_LEN := by
  have hm : tblOid % 2 ^ 32 = tblOid := Nat.mod_eq_of_lt (by omega)
  have hl := natDigits_length_le 10 tblOid
  simp only [sprintf_d, hm, h, if_true]
  exact hl

theorem nul_not_mem_sprintf_d (tblOid : Nat) : NUL ∉ sprintf_d tblOid := by
  have hm : NUL ≠ '-' := by decide
  unfold sprintf_d
  simp only
  split
  · exact nul_not_mem_natDigits _ _
  · simp only [List.mem_cons, not_or]
    exact ⟨hm, nul_not_mem_natDigits _ _⟩

/-- For a table OID below 2^31 the query text, with its terminator, fits the buffer. -/
theorem query_fits_of_lt (tblOid : Nat) (h : tblOid < 2 ^ 31) :
    strlen (primaryKeyQuery tblOid) + 1 ≤ queryBufferSize primaryKeyQueryBase ∧
    strlen (foreignKeyQuery tblOid) + 1 ≤ queryBufferSize foreignKeyQueryBase := by
  have hl := sprintf_d_length_of_lt tblOid h
  have hn := nul_not_mem_sprintf_d tblOid
  have hp : NUL ∉ primaryKeyQueryBase := by decide
  have hf : NUL ∉ foreignKeyQueryBase := by decide
  have e1 : strlen (primaryKeyQuery tblOid) =
      strlen primaryKeyQueryBase + (sprintf_d tblOid).length := by
    rw [primaryKeyQuery_eq, strlen_eq_length (by simp [hp, hn]), strlen_eq_length hp,
      List.length_append]
  have e2 : strlen (foreignKeyQuery tblOid) =
      strlen foreignKeyQueryBase + (sprintf_d tblOid).length := by
    rw [foreignKeyQuery_eq, strlen_eq_length (by simp [hf, hn]), strlen_eq_length hf,
      List.length_append]
  unfold queryBufferSize
  constructor <;> omega

/-- C22 (failing input): the table OID 2147483648 (2^31). The conversion `%d` reads
the 32-bit OID as a signed `int` and prints `-2147483648`, eleven characters: the query
text of `getPrimaryKey` and of `getForeignKey` is one character longer than
`strlen(queryBase) + MAX_OID_LEN`, and with its terminator it needs one byte more than
the buffer allocated for it. -/
theorem oid_query_overflows_buffer :
    sprintf_d 2147483648 = "-2147483648".toList ∧
    primaryKeyQuery 2147483648 = primaryKeyQueryBase ++ "-2147483648".toList ∧
    foreignKeyQuery 2147483648 = foreignKeyQueryBase ++ "-2147483648".toList ∧
    strlen (primaryKeyQuery 2147483648) = strlen primaryKeyQueryBase + MAX_OID_LEN + 1 ∧
    strlen (foreignKeyQuery 2147483648) = strlen foreignKeyQueryBase + MAX_OID_LEN + 1 ∧
    queryBufferSize primaryKeyQueryBase < strlen (primaryKeyQuery 2147483648) + 1 ∧
    queryBufferSize foreignKeyQueryBase < strlen (foreignKeyQuery 2147483648) + 1 := by
  decide

end Dbmirror
